import Mathlib

/-!
Verification of the OneBot v11 QQ channel bridge (`openclaw-qq`).

This file shallowly embeds the transport/RPC client (`OneBotClient`,
`src/unnamed/part_000`) and the inbound-message pipeline of `startAccount`
(`src/unnamed/part_001`) as executable Lean definitions, and proves the
frozen specification claims about them.

Modelling conventions:
* JavaScript numbers used as ids are modelled as `Nat`; absent (`undefined`)
  fields as `Option`; JS truthiness of a number is `≠ 0`, of a string `≠ ""`.
* Timer/event-loop behaviour is modelled as explicit event sequences fed to
  step functions.
* Strings are processed over `List Char`; the JS regular-expression passes of
  `stripMarkdown` / `cleanCQCodes` are implemented as left-to-right scanners
  with the same leftmost-match, lazy/greedy and `g`/`m`-flag semantics.
-/

/-! ## Transport connection (`OneBotClient`, src/unnamed/part_000)

The client owns one WebSocket. We model the mutable fields that the
reconnect/disconnect logic touches (`reconnectAttempts`, `reconnectTimer`,
`destroyed`, `isAlive`) plus the socket's presence/ready-state.  `attached`
means a socket object exists and still has its event listeners
(`disconnect()` calls `removeAllListeners()` and nulls the socket). -/

inductive WsReady where
  | connecting
  | open
  | closing
  | closed
deriving DecidableEq, Repr

structure ClientState where
  attached : Bool
  readyState : WsReady
  reconnectAttempts : Nat
  /-- `some d` means a reconnect timer with delay `d` ms is pending. -/
  reconnectTimer : Option Nat
  destroyed : Bool
  isAlive : Bool
deriving DecidableEq, Repr

/-- Events driving the connection state machine: the socket reporting
open/close/error, the pending reconnect timer firing, and the terminal
`disconnect()` call.  `connect()` is invoked only from the timer callback
(the one start-up call is the initial state). -/
inductive ClientEvent where
  | socketOpen
  | socketClose
  | socketError
  | timerFire
  | disconnect
deriving DecidableEq, Repr

/-- `connect()` (src/unnamed/part_000:33-73): clears any pending reconnect
timer and replaces the socket with a fresh one (listeners attached,
connecting). -/
def clientConnect (st : ClientState) : ClientState :=
  { st with reconnectTimer := none, attached := true, readyState := .connecting }

/-- `scheduleReconnect` (src/unnamed/part_000:75-84): no-op once destroyed,
otherwise arms a timer with delay `min(1000 * 2^attempts, 60000)`. -/
def scheduleReconnect (st : ClientState) : ClientState :=
  if st.destroyed then st
  else { st with reconnectTimer := some (min (1000 * 2 ^ st.reconnectAttempts) 60000) }

/-- One step of the connection state machine, from the handlers installed in
`connect()` and from `disconnect()` (src/unnamed/part_000:43-84,208-215).
Socket events only act while the socket exists with listeners attached;
the timer callback only acts while a timer is pending (`clearTimeout`
prevents a cancelled callback from running). -/
def clientStep (st : ClientState) (e : ClientEvent) : ClientState :=
  match e with
  | .socketOpen =>
      if st.attached then
        { st with isAlive := true, reconnectAttempts := 0, readyState := .open }
      else st
  | .socketClose =>
      if st.attached then
        scheduleReconnect { st with isAlive := false, readyState := .closed }
      else st
  | .socketError =>
      if st.attached then { st with readyState := .closing } else st
  | .timerFire =>
      match st.reconnectTimer with
      | some _ => clientConnect { st with reconnectAttempts := st.reconnectAttempts + 1 }
      | none => st
  | .disconnect =>
      { st with destroyed := true, reconnectTimer := none,
                attached := false, readyState := .closed }

/-- One full failure cycle: the socket closes (scheduling a reconnect) and
the reconnect timer then fires (incrementing the attempt counter and
re-connecting). -/
def failCycle (st : ClientState) : ClientState :=
  clientStep (clientStep st .socketClose) .timerFire

/-- A healthy (not destroyed, listeners attached) state with attempt
counter 0, as after a successful initial `connect()`. -/
def freshClient : ClientState :=
  { attached := true, readyState := .open, reconnectAttempts := 0,
    reconnectTimer := none, destroyed := false, isAlive := true }

theorem failCycle_invariant (st : ClientState)
    (hd : st.destroyed = false) (ha : st.attached = true) :
    (failCycle st).destroyed = false ∧ (failCycle st).attached = true ∧
      (failCycle st).reconnectAttempts = st.reconnectAttempts + 1 := by
  simp [failCycle, clientStep, scheduleReconnect, clientConnect, hd, ha]

theorem failCycle_iter_attempts (st : ClientState)
    (hd : st.destroyed = false) (ha : st.attached = true) (k : Nat) :
    (failCycle^[k] st).destroyed = false ∧ (failCycle^[k] st).attached = true ∧
      (failCycle^[k] st).reconnectAttempts = st.reconnectAttempts + k := by
  induction k generalizing st with
  | zero => simp [hd, ha]
  | succ n ih =>
      have h1 := failCycle_invariant st hd ha
      have h2 := ih (failCycle st) h1.1 h1.2.1
      simp only [Function.iterate_succ_apply]
      refine ⟨h2.1, h2.2.1, ?_⟩
      rw [h2.2.2, h1.2.2]
      omega

theorem failCycle_iter_attempts' (st : ClientState)
    (hd : st.destroyed = false) (ha : st.attached = true) (k : Nat) :
    (failCycle^[k] st).reconnectAttempts = st.reconnectAttempts + k :=
  (failCycle_iter_attempts st hd ha k).2.2

/-- **C2** — Bounded exponential reconnect backoff
(src/unnamed/part_000:75-84 with the open handler at 43-48):
(1) from any live state, an unexpected close schedules a reconnect after
`min(1000·2^attempts, 60000)` ms; (2) each timer fire increments the attempt
counter by exactly one; (3) a successful socket open resets the counter
to 0; (4) hence starting from attempt count 0, the delay scheduled before
the k-th reconnect of a run of consecutive failures is `min(1000·2^k, 60000)`
and the counter after k fired reconnects is k; (5) after a successful open,
the next failure is scheduled with delay 1000 ms again. -/
theorem reconnect_backoff_sequence :
    (∀ st : ClientState, st.destroyed = false → st.attached = true →
      (clientStep st .socketClose).reconnectTimer
        = some (min (1000 * 2 ^ st.reconnectAttempts) 60000)) ∧
    (∀ st : ClientState, st.reconnectTimer.isSome →
      (clientStep st .timerFire).reconnectAttempts = st.reconnectAttempts + 1) ∧
    (∀ st : ClientState, st.attached = true →
      (clientStep st .socketOpen).reconnectAttempts = 0) ∧
    (∀ (st : ClientState) (k : Nat), st.destroyed = false → st.attached = true →
      st.reconnectAttempts = 0 →
      (clientStep (failCycle^[k] st) .socketClose).reconnectTimer
        = some (min (1000 * 2 ^ k) 60000)) ∧
    (∀ st : ClientState, st.destroyed = false → st.attached = true →
      (clientStep (clientStep st .socketOpen) .socketClose).reconnectTimer
        = some 1000) := by
  refine ⟨?_, ?_, ?_, ?_, ?_⟩
  · intro st hd ha
    simp [clientStep, scheduleReconnect, hd, ha]
  · intro st ht
    match h : st.reconnectTimer with
    | some d => simp [clientStep, h, clientConnect]
    | none => rw [h] at ht; simp at ht
  · intro st ha
    simp [clientStep, ha]
  · intro st k hd ha h0
    obtain ⟨hd', ha', hk⟩ := failCycle_iter_attempts st hd ha k
    simp [clientStep, scheduleReconnect, hd', ha', hk, h0]
  · intro st hd ha
    simp [clientStep, scheduleReconnect, hd, ha]

theorem reconnect_backoff_sequence_witness :
    (freshClient.destroyed = false ∧ freshClient.attached = true ∧
      freshClient.reconnectAttempts = 0) ∧
    (clientStep (failCycle^[7] freshClient) .socketClose).reconnectTimer
      = some 60000 ∧
    (clientStep (failCycle^[2] freshClient) .socketClose).reconnectTimer
      = some 4000 := by
  have h := reconnect_backoff_sequence
  refine ⟨⟨rfl, rfl, rfl⟩, ?_, ?_⟩
  · have := h.2.2.2.1 freshClient 7 rfl rfl rfl
    simpa using this
  · have := h.2.2.2.1 freshClient 2 rfl rfl rfl
    simpa using this

/-- **C4** — `disconnect()` is terminal (src/unnamed/part_000:208-215 and
the `destroyed` guard at 75-84): the post-`disconnect()` state is a fixed
point of every subsequent socket/timer event (so no reconnect is ever
scheduled or executed again), the pending reconnect timer is cancelled at
the moment of the call, and the destroyed flag is set. -/
theorem disconnect_is_terminal :
    ∀ (st : ClientState) (l : List ClientEvent),
      l.foldl clientStep (clientStep st .disconnect) = clientStep st .disconnect ∧
      (clientStep st .disconnect).reconnectTimer = none ∧
      (clientStep st .disconnect).destroyed = true ∧
      (clientStep st .disconnect).attached = false := by
  intro st l
  refine ⟨?_, rfl, rfl, rfl⟩
  have hfix : ∀ e, clientStep (clientStep st .disconnect) e = clientStep st .disconnect := by
    intro e
    cases e <;> simp [clientStep]
  induction l with
  | nil => rfl
  | cons e rest ih => rw [List.foldl_cons, hfix e]; exact ih

/-! ## RPC correlator (`sendWithResponse`, src/unnamed/part_000:165-198)

`sendWithResponse(action, params)` returns a promise.  If the socket is not
open it rejects immediately with "WebSocket not open" and sends nothing.
Otherwise it picks a fresh echo token, sends `{action, params, echo}`, and
installs a message listener that settles the promise on the first inbound
frame whose `echo` equals the token (`resolve(data)` when `status == "ok"`,
`reject(msg || "API request failed")` otherwise), removing itself; a 5000 ms
timer rejects with "Request timeout".  A JS promise settles at most once:
later resolve/reject calls are no-ops, which we model by an absorbing
settled state. -/

/-- An inbound response frame as seen by the correlation handler
(`JSON.parse` result): `echo` is `none` when the frame has no echo field. -/
structure RpcFrame where
  echo : Option String
  status : String
  data : String
  msg : Option String
deriving DecidableEq, Repr

/-- What can happen to one pending `sendWithResponse` call, in arrival
order: an inbound frame, or that call's own 5-second timeout firing. -/
inductive CallEvent where
  | frame (f : RpcFrame)
  | timeoutFire
deriving DecidableEq, Repr

inductive CallOutcome where
  /-- `resolve(resp.data)` -/
  | resolved (data : String)
  /-- `reject(new Error(resp.msg || "API request failed"))` -/
  | rejectedRemote (msg : String)
  /-- `reject(new Error("Request timeout"))` -/
  | rejectedTimeout
deriving DecidableEq, Repr

/-- Outcome imposed by a single frame on the call listening for `token`
(src/unnamed/part_000:173-187): `none` when the echo does not match. -/
def frameOutcome (token : String) (f : RpcFrame) : Option CallOutcome :=
  if f.echo = some token then
    some (if f.status = "ok" then .resolved f.data
          else .rejectedRemote (match f.msg with
            | some m => if m = "" then "API request failed" else m
            | none => "API request failed"))
  else none

/-- Outcome imposed by one event on the pending call for `token`. -/
def callEventOutcome (token : String) (e : CallEvent) : Option CallOutcome :=
  match e with
  | .frame f => frameOutcome token f
  | .timeoutFire => some .rejectedTimeout

/-- Promise state transition: once settled (`some`), every further event is
a no-op (the listener was removed with `off` and a settled promise ignores
later resolve/reject calls). -/
def sendWithResponseStep (token : String) (st : Option CallOutcome) (e : CallEvent) :
    Option CallOutcome :=
  match st with
  | some o => some o
  | none => callEventOutcome token e

/-- The settlement of the call for `token` after processing `trace`. -/
def sendWithResponseRun (token : String) (trace : List CallEvent) : Option CallOutcome :=
  trace.foldl (sendWithResponseStep token) none

/-- How many times the promise settles (transitions pending → settled)
along `trace`. -/
def settleCount (token : String) : Option CallOutcome → List CallEvent → Nat
  | _, [] => 0
  | st, e :: rest =>
      let st' := sendWithResponseStep token st e
      (if st.isNone ∧ st'.isSome then 1 else 0) + settleCount token st' rest

/-- The event sequence seen by one call given timestamped inbound frames
(arrival order, ms since the call): the call's own timeout fires at
5000 ms, between the frames arriving earlier and those arriving later. -/
def withTimeout (frames : List (Nat × RpcFrame)) : List CallEvent :=
  (frames.filter (fun tf => tf.1 < 5000)).map (fun tf => .frame tf.2)
    ++ [.timeoutFire]
    ++ (frames.filter (fun tf => ¬ tf.1 < 5000)).map (fun tf => .frame tf.2)

/-- Entry of `sendWithResponse` (src/unnamed/part_000:165-171,189-190):
either an immediate rejection with nothing written, or a pending call with
exactly the frame `{action, params, echo}` written to the socket. -/
inductive SendStart where
  | rejectedNotOpen (errMsg : String)
  | pending (echo : String)
deriving DecidableEq, Repr

/-- An outbound action frame `{action, params, echo?}`. -/
structure ActionFrame where
  action : String
  params : String
  echo : Option String
deriving DecidableEq, Repr

/-- The synchronous prefix of `sendWithResponse`: checks
`this.ws?.readyState !== WebSocket.OPEN` and rejects before sending;
otherwise registers the listener and writes one frame.  Returns the
result together with the list of frames written to the socket. -/
def sendWithResponseStart (st : ClientState) (action params echoToken : String) :
    SendStart × List ActionFrame :=
  if st.attached ∧ st.readyState = .open then
    (.pending echoToken, [⟨action, params, some echoToken⟩])
  else
    (.rejectedNotOpen "WebSocket not open", [])

theorem sendWithResponseRun_eq_findSome (token : String) (trace : List CallEvent) :
    sendWithResponseRun token trace = trace.findSome? (callEventOutcome token) := by
  induction trace with
  | nil => rfl
  | cons e rest ih =>
      simp only [sendWithResponseRun, List.foldl_cons, List.findSome?_cons]
      match h : callEventOutcome token e with
      | some o =>
          simp only [sendWithResponseStep, h]
          have habs : ∀ l : List CallEvent,
              l.foldl (sendWithResponseStep token) (some o) = some o := by
            intro l
            induction l with
            | nil => rfl
            | cons x xs ihx => simpa [sendWithResponseStep] using ihx
          exact habs rest
      | none =>
          simp only [sendWithResponseStep, h]
          exact ih

theorem settleCount_settled (token : String) (o : CallOutcome) (l : List CallEvent) :
    settleCount token (some o) l = 0 := by
  induction l with
  | nil => rfl
  | cons e rest ih => simpa [settleCount, sendWithResponseStep] using ih

theorem settleCount_eq_one_of_timeout (token : String) (trace : List CallEvent)
    (h : CallEvent.timeoutFire ∈ trace) :
    settleCount token none trace = 1 := by
  induction trace with
  | nil => cases h
  | cons e rest ih =>
      match he : callEventOutcome token e with
      | some o =>
          simp [settleCount, sendWithResponseStep, he, settleCount_settled]
      | none =>
          have : e ≠ CallEvent.timeoutFire := by
            intro hcontra
            rw [hcontra] at he
            simp [callEventOutcome] at he
          have hmem : CallEvent.timeoutFire ∈ rest := by
            rcases List.mem_cons.mp h with h1 | h1
            · exact absurd h1.symm this
            · exact h1
          simpa [settleCount, sendWithResponseStep, he] using ih hmem

theorem findSome?_filter_of_none {α β : Type} (h : α → Option β) (p : α → Bool)
    (hp : ∀ a, p a = false → h a = none) :
    ∀ l : List α, l.findSome? h = (l.filter p).findSome? h := by
  intro l
  induction l with
  | nil => rfl
  | cons a t ih =>
      cases hpa : p a with
      | false =>
          rw [List.filter_cons_of_neg (by simp [hpa]), List.findSome?_cons, hp a hpa]
          exact ih
      | true =>
          rw [List.filter_cons_of_pos (by simp [hpa]), List.findSome?_cons,
              List.findSome?_cons]
          match hha : h a with
          | some b => rfl
          | none => exact ih

/-- Evaluating a call's whole timeline: the settlement is the first matching
frame before 5000 ms if any, else the timeout rejection. -/
theorem withTimeout_run (token : String) (frames : List (Nat × RpcFrame)) :
    sendWithResponseRun token (withTimeout frames)
      = ((frames.filter (fun tf => tf.1 < 5000)).findSome?
          (fun tf => frameOutcome token tf.2)).or (some .rejectedTimeout) := by
  rw [sendWithResponseRun_eq_findSome]
  simp only [withTimeout, List.findSome?_append, List.findSome?_map,
    List.findSome?_cons, callEventOutcome, Function.comp]
  have hfun : (callEventOutcome token ∘ fun tf : Nat × RpcFrame => CallEvent.frame tf.2)
      = fun tf => frameOutcome token tf.2 := by
    funext tf
    rfl
  rw [hfun, Option.or_assoc]
  congr 1

/-- **C1** — Echo-correlated request/response settles exactly once
(src/unnamed/part_000:165-198).  For a call listening on echo `token`:
(1) since the 5-second timer always fires, every trace containing the
timeout event settles the promise exactly once; (2) the settlement equals
the first settling event: the first frame carrying the matching echo
resolves with its `data` when `status = "ok"` and rejects with the remote
error message otherwise, and the timeout rejects with a timeout error;
(3) a frame whose echo differs from the call's token never settles the
call; (4) the settlement depends only on the events relevant to this
token, so any number of concurrent calls with distinct tokens settle
independently of each other and of arrival order of foreign responses;
(5) if no frame with the matching echo arrives within 5000 ms, the call
rejects with the timeout error. -/
theorem sendWithResponse_settles_exactly_once :
    (∀ (token : String) (trace : List CallEvent),
      CallEvent.timeoutFire ∈ trace → settleCount token none trace = 1) ∧
    (∀ (token : String) (trace : List CallEvent),
      sendWithResponseRun token trace = trace.findSome? (callEventOutcome token)) ∧
    (∀ (token : String) (f : RpcFrame) (st : Option CallOutcome),
      f.echo ≠ some token → sendWithResponseStep token st (.frame f) = st) ∧
    (∀ (token : String) (frames : List (Nat × RpcFrame)),
      sendWithResponseRun token (withTimeout frames)
        = sendWithResponseRun token
            (withTimeout (frames.filter (fun tf => tf.2.echo = some token)))) ∧
    (∀ (token : String) (frames : List (Nat × RpcFrame)),
      (∀ tf ∈ frames, tf.2.echo = some token → 5000 ≤ tf.1) →
      sendWithResponseRun token (withTimeout frames) = some .rejectedTimeout) := by
  refine ⟨settleCount_eq_one_of_timeout, sendWithResponseRun_eq_findSome, ?_, ?_, ?_⟩
  · intro token f st hne
    match st with
    | some o => rfl
    | none => simp [sendWithResponseStep, callEventOutcome, frameOutcome, hne]
  · intro token frames
    rw [withTimeout_run, withTimeout_run]
    congr 1
    have hp : ∀ tf : Nat × RpcFrame, decide (tf.2.echo = some token) = false →
        frameOutcome token tf.2 = none := by
      intro tf htf
      simp only [decide_eq_false_iff_not] at htf
      simp [frameOutcome, htf]
    rw [findSome?_filter_of_none (fun tf => frameOutcome token tf.2)
          (fun tf => decide (tf.2.echo = some token)) hp
          (frames.filter (fun tf => tf.1 < 5000)),
        List.filter_comm]
  · intro token frames hlate
    rw [withTimeout_run]
    have hnone : (frames.filter (fun tf => tf.1 < 5000)).findSome?
        (fun tf => frameOutcome token tf.2) = none := by
      rw [List.findSome?_eq_none_iff]
      intro tf htf
      rcases List.mem_filter.mp htf with ⟨h1, h2⟩
      have hne : ¬ tf.2.echo = some token := by
        intro hecho
        have := hlate tf h1 hecho
        simp only [decide_eq_true_eq] at h2
        omega
      simp [frameOutcome, hne]
    rw [hnone]
    rfl

theorem sendWithResponse_settles_exactly_once_witness :
    settleCount "tok" none
        [.frame ⟨some "other", "ok", "d1", none⟩, .timeoutFire,
         .frame ⟨some "tok", "ok", "d2", none⟩] = 1 ∧
    sendWithResponseRun "tok"
        [.frame ⟨some "other", "failed", "x", some "boom"⟩,
         .frame ⟨some "tok", "ok", "payload", none⟩, .timeoutFire]
      = some (.resolved "payload") ∧
    sendWithResponseRun "tok" (withTimeout [(6000, ⟨some "tok", "ok", "late", none⟩)])
      = some .rejectedTimeout := by
  have h := sendWithResponse_settles_exactly_once
  refine ⟨h.1 "tok" _ (by decide), ?_, ?_⟩
  · rw [h.2.1 "tok" _]
    decide
  · exact h.2.2.2.2 "tok" [(6000, ⟨some "tok", "ok", "late", none⟩)] (by decide)

/-- **C3** — Calls while the socket is not open fail fast
(src/unnamed/part_000:165-171): whenever the WebSocket is absent or not in
the OPEN ready-state, `sendWithResponse` rejects immediately with the
"WebSocket not open" error and writes no frame to the socket. -/
theorem sendWithResponse_rejects_when_not_open :
    ∀ (st : ClientState) (action params echoToken : String),
      (st.attached = false ∨ st.readyState ≠ .open) →
      sendWithResponseStart st action params echoToken
        = (.rejectedNotOpen "WebSocket not open", []) := by
  intro st action params echoToken h
  have : ¬ (st.attached ∧ st.readyState = .open) := by
    rcases h with h | h
    · intro hc
      rw [h] at hc
      exact Bool.false_ne_true hc.1
    · intro hc
      exact h hc.2
  simp [sendWithResponseStart, this]

theorem sendWithResponse_rejects_when_not_open_witness :
    sendWithResponseStart (clientStep freshClient .disconnect) "get_msg" "p" "e"
      = (.rejectedNotOpen "WebSocket not open", []) :=
  sendWithResponse_rejects_when_not_open (clientStep freshClient .disconnect)
    "get_msg" "p" "e" (Or.inl rfl)

/-! ## Outbound chunking (`splitMessage`, src/unnamed/part_001:604-613)

`splitMessage(text, limit)` returns `[text]` when `text.length <= limit`
(including the empty text), otherwise repeatedly slices `limit`-character
prefixes off the remainder.  The slicing loop is written with explicit
fuel (`fuel ≥ cs.length` suffices, and `splitMessage` passes exactly
`cs.length`); the model is total and agrees with the source for every
`limit ≥ 1` (for `limit = 0` the source's `while` loop does not terminate,
and every claim about it restricts to positive limits). -/

def splitChunksGo (limit : Nat) : Nat → List Char → List (List Char)
  | _, [] => []
  | 0, cs => [cs]
  | fuel + 1, c :: rest =>
      (c :: rest.take (limit - 1)) :: splitChunksGo limit fuel (rest.drop (limit - 1))

def splitMessage (text : String) (limit : Nat) : List String :=
  if text.length ≤ limit then [text]
  else (splitChunksGo limit text.data.length text.data).map (fun cs => String.mk cs)

theorem splitChunksGo_flatten (limit : Nat) :
    ∀ (fuel : Nat) (cs : List Char), (splitChunksGo limit fuel cs).flatten = cs := by
  intro fuel
  induction fuel with
  | zero =>
      intro cs
      match cs with
      | [] => rfl
      | c :: rest => simp [splitChunksGo]
  | succ n ih =>
      intro cs
      match cs with
      | [] => rfl
      | c :: rest =>
          simp only [splitChunksGo, List.flatten_cons, ih]
          simp [List.take_append_drop]

theorem splitChunksGo_chunk_le (limit : Nat) (hl : 0 < limit) :
    ∀ (fuel : Nat) (cs : List Char), cs.length ≤ fuel →
      ∀ chunk ∈ splitChunksGo limit fuel cs, chunk.length ≤ limit := by
  intro fuel
  induction fuel with
  | zero =>
      intro cs h chunk hc
      have : cs = [] := List.eq_nil_of_length_eq_zero (Nat.le_zero.mp h)
      subst this
      simp [splitChunksGo] at hc
  | succ n ih =>
      intro cs h chunk hc
      match cs with
      | [] => simp [splitChunksGo] at hc
      | c :: rest =>
          simp only [splitChunksGo, List.mem_cons] at hc
          rcases hc with hc | hc
          · subst hc
            simp only [List.length_cons]
            have := List.length_take_le (limit - 1) rest
            omega
          · refine ih (rest.drop (limit - 1)) ?_ chunk hc
            simp only [List.length_drop]
            simp only [List.length_cons] at h
            omega

theorem splitChunksGo_count (limit : Nat) (hl : 0 < limit) :
    ∀ (fuel : Nat) (cs : List Char), cs.length ≤ fuel → 0 < cs.length →
      (splitChunksGo limit fuel cs).length = (cs.length + limit - 1) / limit := by
  intro fuel
  induction fuel with
  | zero =>
      intro cs h hpos
      omega
  | succ n ih =>
      intro cs h hpos
      match cs with
      | [] => simp at hpos
      | c :: rest =>
          simp only [splitChunksGo, List.length_cons] at h ⊢
          have hdl : (rest.drop (limit - 1)).length = rest.length + 1 - limit := by
            simp only [List.length_drop]
            omega
          by_cases hle : rest.length + 1 ≤ limit
          · have hnil : rest.drop (limit - 1) = [] := by
              refine List.eq_nil_of_length_eq_zero ?_
              omega
            rw [hnil]
            have harith : (rest.length + 1 + limit - 1) / limit = 1 := by
              have h1 : rest.length + 1 + limit - 1 = limit + rest.length := by omega
              rw [h1, Nat.add_div_left _ hl, Nat.div_eq_of_lt (by omega)]
            simp only [splitChunksGo, List.length_cons, List.length_nil]
            omega
          · have hpos' : 0 < (rest.drop (limit - 1)).length := by omega
            rw [ih (rest.drop (limit - 1)) (by omega) hpos', hdl]
            have h1 : rest.length + 1 - limit + limit - 1 = rest.length := by omega
            have h2 : rest.length + 1 + limit - 1 = rest.length + limit := by omega
            rw [h1, h2]
            rw [Nat.add_div_right _ hl]

theorem string_mk_foldl (acc : String) (l : List (List Char)) :
    (l.map (fun cs => String.mk cs)).foldl (· ++ ·) acc
      = acc ++ String.mk l.flatten := by
  induction l generalizing acc with
  | nil =>
      match acc with
      | .mk d =>
          show String.mk d = String.mk (d ++ [])
          rw [List.append_nil]
  | cons b t2 ih2 =>
      simp only [List.map_cons, List.foldl_cons, List.flatten_cons]
      rw [ih2 (acc ++ String.mk b)]
      match acc with
      | .mk d =>
          show String.mk ((d ++ b) ++ t2.flatten) = String.mk (d ++ (b ++ t2.flatten))
          rw [List.append_assoc]

theorem string_mk_join (ls : List (List Char)) :
    String.join (ls.map (fun cs => String.mk cs)) = String.mk ls.flatten :=
  string_mk_foldl "" ls

/-- **C8 counterexample** — the claimed chunk count fails on the empty
body: `splitMessage "" 1` returns one (empty) chunk, while
`ceil(0/1) = 0` chunks were claimed. -/
theorem splitMessage_empty_counterexample :
    splitMessage "" 1 = [""] ∧ ("" : String).length = 0 ∧
      (splitMessage "" 1).length ≠ (("" : String).length + 1 - 1) / 1 := by
  refine ⟨rfl, rfl, ?_⟩
  decide

/-- **C8 (amended)** — Chunking (`splitMessage`,
src/unnamed/part_001:604-613): for every positive limit `C`, every chunk
has at most `C` characters and the chunks concatenate back to the original
body; a nonempty body of length `L` yields exactly `⌈L/C⌉ = (L+C-1)/C`
chunks, while the empty body yields the single chunk `[""]` (not zero
chunks). -/
theorem splitMessage_chunks_amended :
    (∀ (s : String) (limit : Nat), 0 < limit → 0 < s.length →
      (splitMessage s limit).length = (s.length + limit - 1) / limit) ∧
    (∀ (s : String) (limit : Nat), 0 < limit →
      ∀ chunk ∈ splitMessage s limit, chunk.length ≤ limit) ∧
    (∀ (s : String) (limit : Nat),
      String.join (splitMessage s limit) = s) ∧
    (∀ limit : Nat, splitMessage "" limit = [""]) := by
  have hlen : ∀ s : String, s.data.length = s.length := fun s => rfl
  refine ⟨?_, ?_, ?_, ?_⟩
  · intro s limit hl hpos
    by_cases hle : s.length ≤ limit
    · have harith : (s.length + limit - 1) / limit = 1 := by
        have h1 : s.length + limit - 1 = limit + (s.length - 1) := by omega
        rw [h1, Nat.add_div_left _ hl, Nat.div_eq_of_lt (by omega)]
      simp [splitMessage, hle, harith]
    · simp only [splitMessage, if_neg hle, List.length_map]
      rw [splitChunksGo_count limit hl s.data.length s.data (le_refl _)
            (by rw [hlen]; omega)]
      rw [hlen]
  · intro s limit hl chunk hc
    by_cases hle : s.length ≤ limit
    · simp only [splitMessage, if_pos hle, List.mem_singleton] at hc
      subst hc
      exact hle
    · simp only [splitMessage, if_neg hle, List.mem_map] at hc
      rcases hc with ⟨cs, hcs, rfl⟩
      show cs.length ≤ limit
      exact splitChunksGo_chunk_le limit hl s.data.length s.data (le_refl _) cs hcs
  · intro s limit
    by_cases hle : s.length ≤ limit
    · simp [splitMessage, hle, String.join]
    · simp only [splitMessage, if_neg hle]
      rw [string_mk_join, splitChunksGo_flatten limit s.data.length s.data]
  · intro limit
    simp [splitMessage]

theorem splitMessage_chunks_amended_witness :
    splitMessage "abcde" 2 = ["ab", "cd", "e"] ∧
    (splitMessage "abcde" 2).length = (("abcde" : String).length + 2 - 1) / 2 ∧
    String.join (splitMessage "abcde" 2) = "abcde" := by
  have h := splitMessage_chunks_amended
  refine ⟨by decide, ?_, h.2.2.1 "abcde" 2⟩
  exact h.1 "abcde" 2 (by decide) (by decide)

/-! ## Markdown flattening (`stripMarkdown`, src/unnamed/part_001:615-628)

`stripMarkdown` chains nine global JS regex replacements, in source order:
bold `\*\*(.*?)\*\*`, italic `\*(.*?)\*`, inline code (lazy back-quote
pair), headers `#+\s+(.*)`, links `\[(.*?)\]\(.*?\)`, block quotes
`^\s*>\s+(.*)` (multiline), fenced code blocks (lazy triple back-quote
pair), table rows `^\|.*\|$` (pipes to spaces, trimmed) and list markers
`^[\-\*]\s+`.  Each pass is modelled as a left-to-right scanner over the
original character list with the engine's semantics: leftmost match, lazy
`(.*?)` never spanning a newline, greedy `\s+`/`\s*` spanning newlines,
`^`/`$` at line boundaries under the `m` flag, and on failure advancing
one character.  Scanners carry fuel; one character is consumed per step,
so fuel equal to the input length is always sufficient.  JS `\s` is
modelled by its ASCII members (space, tab, newline, carriage return,
vertical tab, form feed). -/

def backquoteChar : Char := Char.ofNat 96

def jsWhitespace (c : Char) : Bool :=
  c = ' ' || c = '\t' || c = '\n' || c = '\r' || c = Char.ofNat 11 || c = Char.ofNat 12

def jsTrim (cs : List Char) : List Char :=
  ((cs.dropWhile jsWhitespace).reverse.dropWhile jsWhitespace).reverse

/-- Lazy search for the closing delimiter on the same line: returns the
captured inner text and the remainder after the close. -/
def findCloseSameLine (delim : List Char) : List Char → Option (List Char × List Char)
  | [] => none
  | c :: rest =>
      if delim.isPrefixOf (c :: rest) then some ([], (c :: rest).drop delim.length)
      else if c = '\n' then none
      else match findCloseSameLine delim rest with
        | some (inner, r) => some (c :: inner, r)
        | none => none

/-- One paired-delimiter replacement pass (`$1` substitution): used for
bold, italic and inline code. -/
def replaceDelimGo (delim : List Char) : Nat → List Char → List Char
  | _, [] => []
  | 0, cs => cs
  | fuel + 1, c :: rest =>
      if delim.isPrefixOf (c :: rest) then
        match findCloseSameLine delim ((c :: rest).drop delim.length) with
        | some (inner, r) => inner ++ replaceDelimGo delim fuel r
        | none => c :: replaceDelimGo delim fuel rest
      else c :: replaceDelimGo delim fuel rest

/-- Header pass `#+\s+(.*)` → `$1` (unanchored; `\s+` greedy across
newlines, capture to end of line). -/
def headersGo : Nat → List Char → List Char
  | _, [] => []
  | 0, cs => cs
  | fuel + 1, c :: rest =>
      if c = '#' then
        let hashes := (c :: rest).takeWhile (fun ch => ch = '#')
        let afterHash := (c :: rest).dropWhile (fun ch => ch = '#')
        if (afterHash.takeWhile jsWhitespace).isEmpty then
          hashes ++ headersGo fuel afterHash
        else
          let afterWs := afterHash.dropWhile jsWhitespace
          let capture := afterWs.takeWhile (fun ch => ch ≠ '\n')
          let rest2 := afterWs.dropWhile (fun ch => ch ≠ '\n')
          capture ++ headersGo fuel rest2
      else c :: headersGo fuel rest

def findParenSameLine : List Char → Option (List Char)
  | [] => none
  | c :: rest =>
      if c = ')' then some rest
      else if c = '\n' then none
      else findParenSameLine rest

/-- After an opening `[`: search (with the engine's backtracking over the
lazy `(.*?)`) for `](`, then for `)` on the same line; returns the link
text and the remainder after `)`. -/
def linkInner : List Char → Option (List Char × List Char)
  | [] => none
  | c :: rest =>
      if c = '\n' then none
      else
        if [']', '('].isPrefixOf (c :: rest) then
          match findParenSameLine ((c :: rest).drop 2) with
          | some r => some ([], r)
          | none =>
              match linkInner rest with
              | some (i, r) => some (c :: i, r)
              | none => none
        else
          match linkInner rest with
          | some (i, r) => some (c :: i, r)
          | none => none

/-- Link pass `\[(.*?)\]\(.*?\)` → `$1`. -/
def linksGo : Nat → List Char → List Char
  | _, [] => []
  | 0, cs => cs
  | fuel + 1, c :: rest =>
      if c = '[' then
        match linkInner rest with
        | some (inner1, r) => inner1 ++ linksGo fuel r
        | none => c :: linksGo fuel rest
      else c :: linksGo fuel rest

/-- Block-quote pass `^\s*>\s+(.*)` → `▎$1` (multiline).  `atStart` tracks
whether the current position is a `^` position. -/
def bqGo : Nat → Bool → List Char → List Char
  | _, _, [] => []
  | 0, _, cs => cs
  | fuel + 1, atStart, c :: rest =>
      if atStart then
        let after := (c :: rest).dropWhile jsWhitespace
        if after.head? = some '>' then
          let after1 := after.tail
          if (after1.takeWhile jsWhitespace).isEmpty then
            c :: bqGo fuel (c = '\n') rest
          else
            let afterWs2 := after1.dropWhile jsWhitespace
            let capture := afterWs2.takeWhile (fun ch => ch ≠ '\n')
            let rest2 := afterWs2.dropWhile (fun ch => ch ≠ '\n')
            '▎' :: capture ++ bqGo fuel false rest2
        else c :: bqGo fuel (c = '\n') rest
      else c :: bqGo fuel (c = '\n') rest

def findTripleClose : List Char → Option (List Char)
  | [] => none
  | c :: rest =>
      if [backquoteChar, backquoteChar, backquoteChar].isPrefixOf (c :: rest) then
        some ((c :: rest).drop 3)
      else findTripleClose rest

/-- Fenced code-block pass (lazy triple back-quote pair, across lines) →
`[代码块]`. -/
def codeBlocksGo : Nat → List Char → List Char
  | _, [] => []
  | 0, cs => cs
  | fuel + 1, c :: rest =>
      if [backquoteChar, backquoteChar, backquoteChar].isPrefixOf (c :: rest) then
        match findTripleClose ((c :: rest).drop 3) with
        | some r => "[代码块]".data ++ codeBlocksGo fuel r
        | none => c :: codeBlocksGo fuel rest
      else c :: codeBlocksGo fuel rest

/-- Table-row pass `^\|.*\|$` (multiline): a full line starting and ending
with `|` has its pipes replaced by spaces and is trimmed. -/
def tableRowsGo : Nat → Bool → List Char → List Char
  | _, _, [] => []
  | 0, _, cs => cs
  | fuel + 1, atStart, c :: rest =>
      if atStart && c = '|' then
        let line := (c :: rest).takeWhile (fun ch => ch ≠ '\n')
        let rest2 := (c :: rest).dropWhile (fun ch => ch ≠ '\n')
        if 2 ≤ line.length && line.getLast? = some '|' then
          jsTrim (line.map (fun ch => if ch = '|' then ' ' else ch))
            ++ tableRowsGo fuel false rest2
        else c :: tableRowsGo fuel false rest
      else c :: tableRowsGo fuel (c = '\n') rest

/-- List-marker pass `^[\-\*]\s+` → `• ` (multiline; `\s+` greedy across
newlines). -/
def listsGo : Nat → Bool → List Char → List Char
  | _, _, [] => []
  | 0, _, cs => cs
  | fuel + 1, atStart, c :: rest =>
      if atStart && (c = '-' || c = '*') then
        let ws := rest.takeWhile jsWhitespace
        if ws.isEmpty then c :: listsGo fuel false rest
        else
          let rest2 := rest.dropWhile jsWhitespace
          '•' :: ' ' :: listsGo fuel (ws.getLast? = some '\n') rest2
      else c :: listsGo fuel (c = '\n') rest

/-- `stripMarkdown` (src/unnamed/part_001:615-628): the nine replacement
passes chained in source order. -/
def stripMarkdown (s : String) : String :=
  let p1 := replaceDelimGo ['*', '*'] s.data.length s.data
  let p2 := replaceDelimGo ['*'] p1.length p1
  let p3 := replaceDelimGo [backquoteChar] p2.length p2
  let p4 := headersGo p3.length p3
  let p5 := linksGo p4.length p4
  let p6 := bqGo p5.length true p5
  let p7 := codeBlocksGo p6.length p6
  let p8 := tableRowsGo p7.length true p7
  let p9 := listsGo p8.length true p8
  String.mk p9

/-- The characters through which some `stripMarkdown` pass can act. -/
def mdMarkerChars : List Char :=
  ['*', backquoteChar, '#', '[', '>', '|', '-']

theorem replaceDelimGo_id (d : Char) (ds : List Char) :
    ∀ (fuel : Nat) (cs : List Char), (∀ c ∈ cs, c ≠ d) →
      replaceDelimGo (d :: ds) fuel cs = cs := by
  intro fuel
  induction fuel with
  | zero =>
      intro cs h
      match cs with
      | [] => rfl
      | c :: rest => rfl
  | succ n ih =>
      intro cs h
      match cs with
      | [] => rfl
      | c :: rest =>
          have hc : c ≠ d := h c (List.mem_cons_self c rest)
          have hpre : (d :: ds).isPrefixOf (c :: rest) = false := by
            show (d == c && ds.isPrefixOf rest) = false
            have : (d == c) = false := by
              simp only [beq_eq_false_iff_ne, ne_eq]
              exact fun he => hc he.symm
            rw [this, Bool.false_and]
          rw [replaceDelimGo, if_neg (by rw [hpre]; exact Bool.false_ne_true)]
          rw [ih rest (fun x hx => h x (List.mem_cons_of_mem c hx))]

theorem headersGo_id :
    ∀ (fuel : Nat) (cs : List Char), (∀ c ∈ cs, c ≠ '#') →
      headersGo fuel cs = cs := by
  intro fuel
  induction fuel with
  | zero =>
      intro cs h
      match cs with
      | [] => rfl
      | c :: rest => rfl
  | succ n ih =>
      intro cs h
      match cs with
      | [] => rfl
      | c :: rest =>
          have hc : c ≠ '#' := h c (List.mem_cons_self c rest)
          rw [headersGo, if_neg hc,
              ih rest (fun x hx => h x (List.mem_cons_of_mem c hx))]

theorem linksGo_id :
    ∀ (fuel : Nat) (cs : List Char), (∀ c ∈ cs, c ≠ '[') →
      linksGo fuel cs = cs := by
  intro fuel
  induction fuel with
  | zero =>
      intro cs h
      match cs with
      | [] => rfl
      | c :: rest => rfl
  | succ n ih =>
      intro cs h
      match cs with
      | [] => rfl
      | c :: rest =>
          have hc : c ≠ '[' := h c (List.mem_cons_self c rest)
          rw [linksGo, if_neg hc,
              ih rest (fun x hx => h x (List.mem_cons_of_mem c hx))]

theorem bqGo_id :
    ∀ (fuel : Nat) (flag : Bool) (cs : List Char), (∀ c ∈ cs, c ≠ '>') →
      bqGo fuel flag cs = cs := by
  intro fuel
  induction fuel with
  | zero =>
      intro flag cs h
      match cs with
      | [] => rfl
      | c :: rest => rfl
  | succ n ih =>
      intro flag cs h
      match cs with
      | [] => rfl
      | c :: rest =>
          have htail : ∀ x ∈ rest, x ≠ '>' :=
            fun x hx => h x (List.mem_cons_of_mem c hx)
          have hhead : ((c :: rest).dropWhile jsWhitespace).head? ≠ some '>' := by
            intro hcontra
            have hmem : '>' ∈ (c :: rest).dropWhile jsWhitespace := by
              match hd : (c :: rest).dropWhile jsWhitespace with
              | [] => rw [hd] at hcontra; simp at hcontra
              | x :: xs =>
                  rw [hd] at hcontra
                  simp only [List.head?_cons, Option.some.injEq] at hcontra
                  rw [hcontra]
                  exact List.mem_cons_self _ _
            have : '>' ∈ c :: rest := (List.dropWhile_sublist _).mem hmem
            exact h '>' this rfl
          match flag with
          | true =>
              rw [bqGo, if_pos rfl, if_neg hhead, ih (c = '\n') rest htail]
          | false =>
              rw [bqGo, if_neg Bool.false_ne_true, ih (c = '\n') rest htail]

theorem codeBlocksGo_id :
    ∀ (fuel : Nat) (cs : List Char), (∀ c ∈ cs, c ≠ backquoteChar) →
      codeBlocksGo fuel cs = cs := by
  intro fuel
  induction fuel with
  | zero =>
      intro cs h
      match cs with
      | [] => rfl
      | c :: rest => rfl
  | succ n ih =>
      intro cs h
      match cs with
      | [] => rfl
      | c :: rest =>
          have hc : c ≠ backquoteChar := h c (List.mem_cons_self c rest)
          have hpre : ([backquoteChar, backquoteChar, backquoteChar]).isPrefixOf
              (c :: rest) = false := by
            show (backquoteChar == c
              && ([backquoteChar, backquoteChar]).isPrefixOf rest) = false
            have : (backquoteChar == c) = false := by
              simp only [beq_eq_false_iff_ne, ne_eq]
              exact fun he => hc he.symm
            rw [this, Bool.false_and]
          rw [codeBlocksGo, if_neg (by rw [hpre]; exact Bool.false_ne_true)]
          rw [ih rest (fun x hx => h x (List.mem_cons_of_mem c hx))]

theorem tableRowsGo_id :
    ∀ (fuel : Nat) (flag : Bool) (cs : List Char), (∀ c ∈ cs, c ≠ '|') →
      tableRowsGo fuel flag cs = cs := by
  intro fuel
  induction fuel with
  | zero =>
      intro flag cs h
      match cs with
      | [] => rfl
      | c :: rest => rfl
  | succ n ih =>
      intro flag cs h
      match cs with
      | [] => rfl
      | c :: rest =>
          have hc : c ≠ '|' := h c (List.mem_cons_self c rest)
          have hcond : (flag && c = '|') = false := by
            have : (decide (c = '|')) = false := decide_eq_false hc
            rw [this, Bool.and_false]
          rw [tableRowsGo, if_neg (by rw [hcond]; exact Bool.false_ne_true)]
          rw [ih (c = '\n') rest (fun x hx => h x (List.mem_cons_of_mem c hx))]

theorem listsGo_id :
    ∀ (fuel : Nat) (flag : Bool) (cs : List Char),
      (∀ c ∈ cs, c ≠ '-') → (∀ c ∈ cs, c ≠ '*') →
      listsGo fuel flag cs = cs := by
  intro fuel
  induction fuel with
  | zero =>
      intro flag cs h1 h2
      match cs with
      | [] => rfl
      | c :: rest => rfl
  | succ n ih =>
      intro flag cs h1 h2
      match cs with
      | [] => rfl
      | c :: rest =>
          have hc1 : c ≠ '-' := h1 c (List.mem_cons_self c rest)
          have hc2 : c ≠ '*' := h2 c (List.mem_cons_self c rest)
          have hcond : (flag && (c = '-' || c = '*')) = false := by
            have e1 : (decide (c = '-')) = false := decide_eq_false hc1
            have e2 : (decide (c = '*')) = false := decide_eq_false hc2
            rw [e1, e2, Bool.or_false, Bool.and_false]
          rw [listsGo, if_neg (by rw [hcond]; exact Bool.false_ne_true)]
          rw [ih (c = '\n') rest (fun x hx => h1 x (List.mem_cons_of_mem c hx))
              (fun x hx => h2 x (List.mem_cons_of_mem c hx))]

/-- **C9 counterexample** — `stripMarkdown` is not idempotent: on
`"# # a"` the header pass strips one layer of `#` markers per
application, so a second application changes the result again. -/
theorem stripMarkdown_not_idempotent_counterexample :
    stripMarkdown "# # a" = "# a" ∧
      stripMarkdown (stripMarkdown "# # a") = "a" ∧
      stripMarkdown (stripMarkdown "# # a") ≠ stripMarkdown "# # a" := by
  refine ⟨?_, ?_, ?_⟩ <;> decide

/-- **C9 (amended)** — `stripMarkdown` (src/unnamed/part_001:615-628) is
not idempotent on arbitrary text (see the counterexample), but it is the
identity — and hence idempotent — on text containing none of the markdown
marker characters `*`, back-quote, `#`, `[`, `>`, `|`, `-` (already
fully-flattened plain text). -/
theorem stripMarkdown_identity_on_plain_amended :
    ∀ s : String, (∀ c ∈ s.data, c ∉ mdMarkerChars) →
      stripMarkdown s = s ∧ stripMarkdown (stripMarkdown s) = stripMarkdown s := by
  intro s h
  have hmk : ∀ ch : Char, ch ∈ mdMarkerChars → ∀ c ∈ s.data, c ≠ ch :=
    fun ch hch c hc he => h c hc (he ▸ hch)
  have hstar := hmk '*' (by simp [mdMarkerChars])
  have hbt := hmk backquoteChar (by simp [mdMarkerChars])
  have hhash := hmk '#' (by simp [mdMarkerChars])
  have hbr := hmk '[' (by simp [mdMarkerChars])
  have hgt := hmk '>' (by simp [mdMarkerChars])
  have hpipe := hmk '|' (by simp [mdMarkerChars])
  have hdash := hmk '-' (by simp [mdMarkerChars])
  have hid : stripMarkdown s = s := by
    simp only [stripMarkdown]
    rw [replaceDelimGo_id '*' ['*'] s.data.length s.data hstar]
    rw [replaceDelimGo_id '*' [] s.data.length s.data hstar]
    rw [replaceDelimGo_id backquoteChar [] s.data.length s.data hbt]
    rw [headersGo_id s.data.length s.data hhash]
    rw [linksGo_id s.data.length s.data hbr]
    rw [bqGo_id s.data.length true s.data hgt]
    rw [codeBlocksGo_id s.data.length s.data hbt]
    rw [tableRowsGo_id s.data.length true s.data hpipe]
    rw [listsGo_id s.data.length true s.data hdash hstar]
  exact ⟨hid, by rw [hid]; exact hid⟩

theorem stripMarkdown_identity_on_plain_amended_witness :
    stripMarkdown "hello world" = "hello world" ∧
      stripMarkdown (stripMarkdown "hello world")
        = stripMarkdown "hello world" :=
  stripMarkdown_identity_on_plain_amended "hello world" (by decide)

/-! ## CQ-code cleaning (`cleanCQCodes`, src/unnamed/part_001:538-567)

`cleanCQCodes` (called on reply bodies, forwarded-message lines and the
final context body) collects the URLs of `[CQ:image,...url=...]` codes
(greedy backtracking picks the last `url=` inside the bracket whose value
is nonempty), replaces `[CQ:face,id=<digits>]` with a face placeholder,
strips every remaining `[CQ:...]` code (image codes with a `url=` become a
picture placeholder), collapses whitespace runs to single spaces, trims,
and appends the collected image URLs. -/

def strTruthy : Option String → Bool
  | none => false
  | some s => s ≠ ""

def natTruthy : Option Nat → Bool
  | none => false
  | some n => n ≠ 0

def containsSeq (needle : List Char) : List Char → Bool
  | [] => needle.isEmpty
  | c :: rest => needle.isPrefixOf (c :: rest) || containsSeq needle rest

/-- JS `String.prototype.includes`. -/
def containsSubstr (s sub : String) : Bool :=
  containsSeq sub.data s.data

/-- `capture.replace(/&amp;/g, "&")`. -/
def replaceAmpGo : Nat → List Char → List Char
  | _, [] => []
  | 0, cs => cs
  | fuel + 1, c :: rest =>
      if ['&', 'a', 'm', 'p', ';'].isPrefixOf (c :: rest) then
        '&' :: replaceAmpGo fuel ((c :: rest).drop 5)
      else c :: replaceAmpGo fuel rest

/-- The `url=` candidates of a bracket body, in scan order (start of the
value after each occurrence of `url=`). -/
def urlCandidates : List Char → List (List Char)
  | [] => []
  | c :: rest =>
      if ['u', 'r', 'l', '='].isPrefixOf (c :: rest) then
        ((c :: rest).drop 4) :: urlCandidates rest
      else urlCandidates rest

/-- Greedy backtracking of `[^\]]*url=([^,\]]+)`: the last `url=` whose
value (up to the next comma or the closing bracket) is nonempty wins. -/
def pickUrl : List (List Char) → Option (List Char)
  | [] => none
  | after :: rest =>
      let cap := after.takeWhile (fun ch => ch ≠ ',')
      if cap.isEmpty then pickUrl rest else some cap

/-- The `while (imageRegex.exec(text))` collection loop for
`/\[CQ:image,[^\]]*url=([^,\]]+)[^\]]*\]/g`. -/
def collectImageUrlsGo : Nat → List Char → List (List Char)
  | _, [] => []
  | 0, _ => []
  | fuel + 1, c :: rest =>
      if "[CQ:image,".data.isPrefixOf (c :: rest) then
        let body := (c :: rest).drop 10
        let span := body.takeWhile (fun ch => ch ≠ ']')
        let after := body.dropWhile (fun ch => ch ≠ ']')
        if after.isEmpty then collectImageUrlsGo fuel rest
        else
          match pickUrl (urlCandidates span).reverse with
          | some cap => replaceAmpGo cap.length cap :: collectImageUrlsGo fuel after.tail
          | none => collectImageUrlsGo fuel rest
      else collectImageUrlsGo fuel rest

/-- `/\[CQ:face,id=(\d+)\]/g` → `[表情]`. -/
def faceGo : Nat → List Char → List Char
  | _, [] => []
  | 0, cs => cs
  | fuel + 1, c :: rest =>
      if "[CQ:face,id=".data.isPrefixOf (c :: rest) then
        let after := (c :: rest).drop 12
        let digits := after.takeWhile Char.isDigit
        let after2 := after.dropWhile Char.isDigit
        if !digits.isEmpty && after2.head? = some ']' then
          "[表情]".data ++ faceGo fuel after2.tail
        else c :: faceGo fuel rest
      else c :: faceGo fuel rest

/-- `/\[CQ:[^\]]+\]/g` with the replacement function: an image code that
carries `url=` becomes `[图片]`, every other code is erased. -/
def cqGo : Nat → List Char → List Char
  | _, [] => []
  | 0, cs => cs
  | fuel + 1, c :: rest =>
      if "[CQ:".data.isPrefixOf (c :: rest) then
        let body := (c :: rest).drop 4
        let span := body.takeWhile (fun ch => ch ≠ ']')
        let after := body.dropWhile (fun ch => ch ≠ ']')
        if !span.isEmpty && !after.isEmpty then
          (if "image".data.isPrefixOf span && containsSeq ['u', 'r', 'l', '='] span then
            "[图片]".data
          else []) ++ cqGo fuel after.tail
        else c :: cqGo fuel rest
      else c :: cqGo fuel rest

/-- `/\s+/g` → `" "`. -/
def wsCollapseGo : Nat → List Char → List Char
  | _, [] => []
  | 0, cs => cs
  | fuel + 1, c :: rest =>
      if jsWhitespace c then ' ' :: wsCollapseGo fuel (rest.dropWhile jsWhitespace)
      else c :: wsCollapseGo fuel rest

def joinComma : List (List Char) → List Char
  | [] => []
  | [u] => u
  | u :: rest => u ++ [',', ' '] ++ joinComma rest

def jsTrimString (s : String) : String :=
  String.mk (jsTrim s.data)

/-- `cleanCQCodes` (src/unnamed/part_001:538-567); the absent-text guard
`if (!text) return ""` is the empty-string case (callers pass `""` for a
missing field). -/
def cleanCQCodes (s : String) : String :=
  if s = "" then ""
  else
    let urls := collectImageUrlsGo s.data.length s.data
    let r1 := faceGo s.data.length s.data
    let r2 := cqGo r1.length r1
    let r3 := jsTrim (wsCollapseGo r2.length r2)
    if urls.isEmpty then String.mk r3
    else if r3.isEmpty then String.mk ("[图片: ".data ++ joinComma urls ++ [']'])
    else String.mk (r3 ++ (' ' :: "[图片: ".data) ++ joinComma urls ++ [']'])

/-! ## Inbound message pipeline (`startAccount` message handler,
src/unnamed/part_001:1024-1437)

The handler is modelled as a pure function over an explicit pipeline state
(`PState`: the client's learned self id and the `processedMsgIds` set) and
an oracle environment (`Env`) for the asynchronous collaborators it calls
(file downloads and the RPC lookups behind name resolution, forward
bundles, file URLs and quoted-message fetches) — each oracle returns
`none` where the source's `try/catch` swallows a rejection.  The
group-history fetch (src/unnamed/part_001:1267-1275) and the member-name
cache write only contribute text to the final context body, which the
model does not inspect, and are not modelled.  `processedMsgIds` is a JS
`Set`; since the source only inserts after a negative membership test, a
duplicate-free list is a faithful model (`size` is its length). -/

inductive Seg where
  | text (content : String)
  | atSeg (qq : String)
  | record (transcript : Option String)
  | video
  | json
  | forward (id : Option String)
  | reply (id : Option String)
  | image (url : Option String) (fileField : Option String)
  | fileSeg (url : Option String) (fileId : Option String) (busid : Option String)
      (fileField : Option String) (nameField : Option String)
  | other (ty : String)
deriving DecidableEq, Repr

structure FileInfo where
  name : Option String
  url : Option String
  id : Option String
  busid : Option String
deriving DecidableEq, Repr

structure QQEvent where
  postType : String
  metaEventType : Option String
  subType : Option String
  noticeType : Option String
  targetId : Option Nat
  selfId : Option Nat
  userId : Option Nat
  groupId : Option Nat
  guildId : Option String
  channelId : Option String
  /-- `String(event.message_id)`; `none` models an absent/falsy id. -/
  messageId : Option String
  messageType : Option String
  /-- `event.raw_message || ""`: the empty string models an absent field. -/
  rawMessage : String
  /-- `some segs` iff `Array.isArray(event.message)`. -/
  message : Option (List Seg)
  file : Option FileInfo
  senderNickname : Option String
  time : Nat
deriving DecidableEq, Repr

/-- A quoted message as returned by `get_msg`. -/
structure RepliedMsg where
  /-- `some s` iff `typeof repliedMsg.message === 'string'`. -/
  messageStr : Option String
  rawMessage : Option String
  senderUserId : Option Nat
  senderNickname : Option String
  senderCard : Option String
deriving DecidableEq, Repr

/-- One entry of a forwarded bundle (`getForwardMsg(...).messages`). -/
structure FwdMsg where
  senderNickname : Option String
  userId : Option Nat
  content : Option String
  rawMessage : Option String
deriving DecidableEq, Repr

structure GroupSettings where
  requireMention : Option Bool
  historyLimit : Option Int
deriving DecidableEq, Repr

structure QQConfig where
  /-- dedup runs unless `enableDeduplication !== false`. -/
  enableDeduplication : Option Bool
  enableGuilds : Bool
  requireMention : Option Bool
  historyLimit : Option Int
  /-- `config.groupSettings?.[String(groupId)]`. -/
  groupSettings : List (String × GroupSettings)
  keywordTriggers : Option (List String)
  blockedUsers : Option (List Nat)
  allowedGroups : Option (List Nat)
  admins : Option (List Nat)
  enableErrorNotify : Bool
  systemPrompt : Option String
deriving DecidableEq, Repr

/-- Oracles for the handler's asynchronous collaborators.  A `none`
result stands for a caught rejection (or a missing field) at the
corresponding call site. -/
structure Env where
  /-- `downloadFile(url, filename)`: `some localPath` on success. -/
  download : String → String → Option String
  /-- `get_group_file_url` for the `group_upload` notice
  (src/unnamed/part_001:1100-1111): on RPC success `some info.url`
  (itself `none`/empty when the response lacks a url). -/
  noticeGroupFileUrl : Option Nat → String → Option String → Option (Option String)
  /-- `getCachedMemberName(String(groupId), String(qq))`: a valid cache
  hit (the 1-hour TTL check happens inside). -/
  cachedName : String → String → Option String
  /-- `get_group_member_info`: `some (card, nickname)` on RPC success. -/
  memberInfo : Option Nat → String → Option (Option String × Option String)
  /-- `getForwardMsg(id).messages` (none: thrown or missing). -/
  getForward : String → Option (List FwdMsg)
  /-- `get_group_file_url` inside `getFileUrl`
  (src/unnamed/part_001:773-784): `some info.url` on RPC success. -/
  groupFileUrl : Option Nat → String → Option String → Option (Option String)
  /-- `get_file` inside `getFileUrl` (src/unnamed/part_001:787-797):
  `some (url, file)` on RPC success. -/
  getFileInfo : String → Option (Option String × Option String)
  /-- `client.getMsg(replyMsgId)` (none: thrown). -/
  getMsg : String → Option RepliedMsg

structure PState where
  selfId : Option Nat
  processed : List String
deriving DecidableEq, Repr

structure ReplyCtx where
  fromId : String
  conversationLabel : String
  sessionKey : String
  chatType : String
  senderId : String
  /-- the resolved text (`RawBody`). -/
  text : String
deriving DecidableEq, Repr

/-- What one handler invocation does after the early returns: nothing, an
admin command short-circuit (a direct send, no session/agent reply), or
recording the inbound session and dispatching one reply attempt. -/
inductive HandlerOutput where
  | dropped
  | adminCommand (cmd : String)
  | reply (ctx : ReplyCtx)
deriving DecidableEq, Repr

def isReplyOut : HandlerOutput → Bool
  | .reply _ => true
  | _ => false

/-- JS `${x}` / `String(x)` on a possibly-absent number. -/
def toStrN : Option Nat → String
  | some n => toString n
  | none => "undefined"

def toStrS : Option String → String
  | some s => s
  | none => "undefined"

def pokePlaceholder : String := "[动作] 用户戳了你一下"

/-- The `processedMsgIds` cleanup interval body
(src/unnamed/part_001:1025-1027): the set is cleared in full once its size
exceeds 1000, else untouched. -/
def cleanupTick (processed : List String) : List String :=
  if 1000 < processed.length then [] else processed

/-- `getFileUrl` (src/unnamed/part_001:768-805): segment url, then the
group-file RPC, then the generic `get_file` RPC (url or `file://` path),
then the raw `file` field when it is an http(s) URL. -/
def getFileUrl (env : Env) (isGroup : Bool) (groupId : Option Nat)
    (url fileId busid fileField : Option String) : Option String :=
  if strTruthy url then url
  else
    let step2 : Option String :=
      if isGroup && natTruthy groupId && strTruthy fileId then
        match env.groupFileUrl groupId (fileId.getD "") busid with
        | some infoUrl => if strTruthy infoUrl then infoUrl else none
        | none => none
      else none
    match step2 with
    | some u => some u
    | none =>
        let step3 : Option String :=
          if strTruthy fileId then
            match env.getFileInfo (fileId.getD "") with
            | some (infoUrl, infoFile) =>
                if strTruthy infoUrl then infoUrl
                else if strTruthy infoFile then some ("file://" ++ infoFile.getD "")
                else none
            | none => none
          else none
        match step3 with
        | some u => some u
        | none =>
            if strTruthy fileField
                && ((fileField.getD "").startsWith "http://"
                  || (fileField.getD "").startsWith "https://") then
              fileField
            else none

/-- `m.sender?.nickname || m.user_id` of a forwarded line. -/
def fwdSender (m : FwdMsg) : String :=
  if strTruthy m.senderNickname then m.senderNickname.getD "" else toStrN m.userId

/-- `m.content || m.raw_message` of a forwarded line (absent → `""`). -/
def fwdContent (m : FwdMsg) : String :=
  if strTruthy m.content then m.content.getD "" else (m.rawMessage.getD "")

/-- The segment-resolution loop (src/unnamed/part_001:1171-1218),
accumulating `resolvedText` per segment kind. -/
def resolveSegs (env : Env) (isGroup : Bool) (groupId : Option Nat) :
    List Seg → String
  | [] => ""
  | seg :: rest =>
      (match seg with
       | .text t => t
       | .atSeg qq =>
           let name :=
             if qq ≠ "all" && isGroup then
               match env.cachedName (toStrN groupId) qq with
               | some cached => cached
               | none =>
                   match env.memberInfo groupId qq with
                   | some (card, nickname) =>
                       if strTruthy card then card.getD ""
                       else if strTruthy nickname then nickname.getD ""
                       else qq
                   | none => qq
             else qq
           " @" ++ name ++ " "
       | .record transcript =>
           " [语音消息]" ++
             (match transcript with
              | some t => if t ≠ "" then "(" ++ t ++ ")" else ""
              | none => "")
       | .video => " [视频消息]"
       | .json => " [卡片消息]"
       | .forward fid =>
           if strTruthy fid then
             match env.getForward (fid.getD "") with
             | some msgs =>
                 "\n[转发聊天记录]:" ++ String.join ((msgs.take 10).map (fun m =>
                   "\n" ++ fwdSender m ++ ": " ++ cleanCQCodes (fwdContent m)))
             | none => ""
           else ""
       | .reply _ => ""
       | .image _ _ => ""
       | .fileSeg url fileId busid fileField nameField =>
           let fileName :=
             if strTruthy fileField then fileField.getD ""
             else if strTruthy nameField then nameField.getD "" else "未命名"
           match getFileUrl env isGroup groupId url fileId busid fileField with
           | some furl =>
               match env.download furl fileName with
               | some localPath =>
                   " [文件: " ++ fileName ++ "]\n[文件已下载: " ++ localPath ++ "]"
               | none => " [文件: " ++ fileName ++ "] (下载失败, URL: " ++ furl ++ ")"
           | none => " [文件: " ++ fileName ++ "] (无法获取下载链接)"
       | .other _ => "")
      ++ resolveSegs env isGroup groupId rest

/-- `text` after resolution (src/unnamed/part_001:1169-1220): the resolved
segments when the message is an array and resolution is nonempty, else the
raw message. -/
def computeText (env : Env) (ev : QQEvent) (isGroup : Bool) : String :=
  match ev.message with
  | some segs =>
      let resolved := resolveSegs env isGroup ev.groupId segs
      if resolved ≠ "" then resolved else ev.rawMessage
  | none => ev.rawMessage

/-- `/^-?\d+$/`. -/
def isIntLiteral : List Char → Bool
  | [] => false
  | '-' :: rest => !rest.isEmpty && rest.all Char.isDigit
  | cs => cs.all Char.isDigit

/-- First `/\[CQ:reply,id=(\d+)\]/` match of a string. -/
def findCQReplyId : List Char → Option (List Char)
  | [] => none
  | c :: rest =>
      if "[CQ:reply,id=".data.isPrefixOf (c :: rest) then
        let after := (c :: rest).drop 13
        let digits := after.takeWhile Char.isDigit
        let after2 := after.dropWhile Char.isDigit
        if !digits.isEmpty && after2.head? = some ']' then some digits
        else findCQReplyId rest
      else findCQReplyId rest

/-- `getReplyMessageId` (src/unnamed/part_001:569-585): the first reply
segment with a truthy integer-literal id, else the first CQ reply code of
the raw text. -/
def getReplyMessageId (message : Option (List Seg)) (rawMessage : String) :
    Option String :=
  let fromSegs :=
    match message with
    | some segs =>
        segs.findSome? (fun s =>
          match s with
          | .reply oid =>
              if strTruthy oid then
                let trimmed := jsTrimString (oid.getD "")
                if trimmed ≠ "" && isIntLiteral trimmed.data then some trimmed
                else none
              else none
          | _ => none)
    | none => none
  match fromSegs with
  | some r => some r
  | none =>
      if rawMessage ≠ "" then (findCQReplyId rawMessage.data).map String.mk
      else none

/-- `text.trim().split(/\s+/)[0]`: the first whitespace-delimited token of
the trimmed text. -/
def firstWsToken (s : String) : String :=
  String.mk (((jsTrimString s).data).takeWhile (fun c => !jsWhitespace c))

/-- The admin command block (src/unnamed/part_001:1228-1259): `some cmd`
when the handler returns after a direct command send (`/status`, `/help`,
and in groups `/mute`, `/ban`, `/kick`); unknown slash commands fall
through to normal processing. -/
def adminCommand (isGuild isGroup isAdmin : Bool) (text : String) : Option String :=
  if !isGuild && isAdmin && (jsTrimString text).startsWith "/" then
    let cmd := firstWsToken text
    if cmd = "/status" || cmd = "/help" then some cmd
    else if isGroup && (cmd = "/mute" || cmd = "/ban") then some cmd
    else if isGroup && cmd = "/kick" then some cmd
    else none
  else none

/-- `String(event.target_id) === String(client.getSelfId())`: equal only
when both are numbers with the same value ("undefined" ≠ "null"). -/
def pokeTargetsSelf (st : PState) (ev : QQEvent) : Bool :=
  match ev.targetId, st.selfId with
  | some t, some s => t = s
  | _, _ => false

/-- The notice-to-message conversions (src/unnamed/part_001:1061-1127):
poke notices targeting self, `offline_file` notices and `group_upload`
notices are rewritten in place into synthetic message events; a poke not
targeting self or a file notice without file info makes the handler
return (`none`).  The three guards are mutually exclusive (they test the
same `notice_type` field), so the source's sequential `if`s collapse to
one case split; any event that matches no guard passes through
unchanged. -/
def convertNotices (env : Env) (st : PState) (ev : QQEvent) : Option QQEvent :=
  if ev.postType = "notice" ∧ ev.noticeType = some "notify"
      ∧ ev.subType = some "poke" then
    if pokeTargetsSelf st ev then
      some { ev with postType := "message",
                     messageType := some (if natTruthy ev.groupId then "group" else "private"),
                     rawMessage := pokePlaceholder,
                     message := some [.text pokePlaceholder] }
    else none
  else if ev.postType = "notice" ∧ ev.noticeType = some "offline_file" then
    match ev.file with
    | some f =>
        let fileName := if strTruthy f.name then f.name.getD "" else "未命名"
        let fileText :=
          if strTruthy f.url then
            match env.download (f.url.getD "") fileName with
            | some localPath =>
                "[文件: " ++ fileName ++ "]\n[文件已下载: " ++ localPath ++ "]"
            | none => "[文件: " ++ fileName ++ "] (下载失败)"
          else "[文件: " ++ fileName ++ "]"
        some { ev with postType := "message", messageType := some "private",
                       rawMessage := fileText, message := some [.text fileText] }
    | none => none
  else if ev.postType = "notice" ∧ ev.noticeType = some "group_upload" then
    match ev.file with
    | some f =>
        let fileName := if strTruthy f.name then f.name.getD "" else "未命名"
        let fileUrl : Option String :=
          if strTruthy f.url then f.url
          else if strTruthy f.id then
            match env.noticeGroupFileUrl ev.groupId (f.id.getD "") f.busid with
            | some infoUrl => if strTruthy infoUrl then infoUrl else none
            | none => none
          else none
        let fileText :=
          match fileUrl with
          | some u =>
              match env.download u fileName with
              | some localPath =>
                  "[文件: " ++ fileName ++ "]\n[文件已下载: " ++ localPath ++ "]"
              | none => "[文件: " ++ fileName ++ "] (下载失败)"
          | none => "[文件: " ++ fileName ++ "]"
        some { ev with postType := "message", messageType := some "group",
                       rawMessage := fileText, message := some [.text fileText] }
    | none => none
  else some ev

/-- Self-echo gate (src/unnamed/part_001:1131-1136):
`const selfId = client.getSelfId() ?? event.self_id;
if (selfId && String(event.user_id) === String(selfId)) return;`. -/
def selfEchoDrop (st : PState) (ev : QQEvent) : Bool :=
  match st.selfId.or ev.selfId with
  | some s => s ≠ 0 && ev.userId = some s
  | none => false

/-- Empty-event gate (src/unnamed/part_001:1140-1146). -/
def emptyDrop (ev : QQEvent) : Bool :=
  jsTrimString ev.rawMessage = ""
    && (match ev.message with
        | some segs => segs.isEmpty
        | none => true)

/-- Whether deduplication applies to this event
(src/unnamed/part_001:1148). -/
def dedupApplies (cfg : QQConfig) (ev : QQEvent) : Bool :=
  cfg.enableDeduplication ≠ some false && strTruthy ev.messageId

def eventIsGroup (ev : QQEvent) : Bool := ev.messageType = some "group"

def eventIsGuild (ev : QQEvent) : Bool := ev.messageType = some "guild"

/-- `groupOverride?.requireMention ?? config.requireMention`, used in a
boolean position (src/unnamed/part_001:1165-1166). -/
def effRequireMention (cfg : QQConfig) (ev : QQEvent) : Bool :=
  let groupOverride :=
    if eventIsGroup ev && natTruthy ev.groupId then
      (cfg.groupSettings.lookup (toStrN ev.groupId))
    else none
  ((groupOverride.bind (fun gs => gs.requireMention)).or cfg.requireMention)
    = some true

/-- The resolved text the trigger logic sees. -/
def resolvedTextOf (env : Env) (ev : QQEvent) : String :=
  computeText env ev (eventIsGroup ev)

def blockedDrop (cfg : QQConfig) (ev : QQEvent) : Bool :=
  match ev.userId with
  | some u => (cfg.blockedUsers.getD []).contains u
  | none => false

def allowedGroupsDrop (cfg : QQConfig) (ev : QQEvent) : Bool :=
  eventIsGroup ev && !(cfg.allowedGroups.getD []).isEmpty
    && !(match ev.groupId with
         | some g => (cfg.allowedGroups.getD []).contains g
         | none => false)

def isAdminUser (cfg : QQConfig) (ev : QQEvent) : Bool :=
  match ev.userId with
  | some u => (cfg.admins.getD []).contains u
  | none => false

def adminsDrop (cfg : QQConfig) (ev : QQEvent) : Bool :=
  !(cfg.admins.getD []).isEmpty && !isAdminUser cfg ev

/-- Keyword trigger scan (src/unnamed/part_001:1278-1280). -/
def keywordHit (cfg : QQConfig) (text : String) : Bool :=
  match cfg.keywordTriggers with
  | some kws => kws.any (fun kw => containsSubstr text kw)
  | none => false

/-- `isTriggered` before the mention gate (src/unnamed/part_001:1277-1280). -/
def isTriggeredPre (cfg : QQConfig) (ev : QQEvent) (text : String) : Bool :=
  (!eventIsGroup ev || containsSubstr text pokePlaceholder) || keywordHit cfg text

/-- The `mentioned` computation of the mention gate
(src/unnamed/part_001:1287-1291), for a known effective self id `esid`:
an `at` segment targeting self or `"all"` (or, for non-array messages, an
inline CQ at-code), or a quoted message authored by self. -/
def mentionSatisfied (env : Env) (ev : QQEvent) (text : String) (esid : Nat) : Bool :=
  let fromSegs :=
    match ev.message with
    | some segs =>
        segs.any (fun s =>
          match s with
          | .atSeg qq => qq = toString esid || qq = "all"
          | _ => false)
    | none => containsSubstr text ("[CQ:at,qq=" ++ toString esid ++ "]")
  fromSegs
    || (match getReplyMessageId ev.message text with
        | some rid =>
            match env.getMsg rid with
            | some r => r.senderUserId = some esid
            | none => false
        | none => false)

/-- The context record handed to session recording and reply dispatch
(src/unnamed/part_001:1295-1303,1419-1426), restricted to the routing
fields and the resolved text (the body's system/history decoration is not
modelled). -/
def mkReplyCtx (ev : QQEvent) (text : String) : ReplyCtx :=
  let isGroup := eventIsGroup ev
  let isGuild := eventIsGuild ev
  let fromId :=
    if isGroup then "group:" ++ toStrN ev.groupId
    else if isGuild then "guild:" ++ toStrS ev.guildId ++ ":" ++ toStrS ev.channelId
    else toStrN ev.userId
  { fromId := fromId
    conversationLabel :=
      if isGroup then "QQ Group " ++ toStrN ev.groupId
      else if isGuild then
        "QQ Guild " ++ toStrS ev.guildId ++ " Channel " ++ toStrS ev.channelId
      else "QQ User " ++ toStrN ev.userId
    sessionKey := "qq:" ++ fromId
    chatType := if isGroup then "group" else if isGuild then "channel" else "direct"
    senderId := toStrN ev.userId
    text := text }

/-- The state after the deduplication step (src/unnamed/part_001:1148-1152):
the message id is recorded when deduplication applies. -/
def postDedupState (cfg : QQConfig) (st : PState) (ev : QQEvent) : PState :=
  if dedupApplies cfg ev then
    { st with processed := (ev.messageId.getD "") :: st.processed }
  else st

/-- The trigger evaluation and reply dispatch tail of the handler
(src/unnamed/part_001:1277-1436): when mention-gating applies and the
message is not yet triggered, an unknown self identity or a missing
mention drops the event; otherwise the session is recorded and one reply
dispatch is attempted. -/
def triggerStage (cfg : QQConfig) (env : Env) (st : PState) (ev : QQEvent) :
    PState × HandlerOutput :=
  if (eventIsGroup ev || eventIsGuild ev) && effRequireMention cfg ev
      && !isTriggeredPre cfg ev (resolvedTextOf env ev) then
    match st.selfId.or ev.selfId with
    | some esid =>
        if esid = 0 then (postDedupState cfg st ev, .dropped)
        else if mentionSatisfied env ev (resolvedTextOf env ev) esid then
          (postDedupState cfg st ev,
            .reply (mkReplyCtx ev (resolvedTextOf env ev)))
        else (postDedupState cfg st ev, .dropped)
    | none => (postDedupState cfg st ev, .dropped)
  else (postDedupState cfg st ev, .reply (mkReplyCtx ev (resolvedTextOf env ev)))

/-- The message-event body of the handler (src/unnamed/part_001:1131-1437),
entered with `event.post_type === "message"`. -/
def processMessage (cfg : QQConfig) (env : Env) (st : PState) (ev : QQEvent) :
    PState × HandlerOutput :=
  if selfEchoDrop st ev then (st, .dropped)
  else if ev.userId = some 2854196310 then (st, .dropped)
  else if emptyDrop ev then (st, .dropped)
  else if dedupApplies cfg ev && st.processed.contains (ev.messageId.getD "") then
    (st, .dropped)
  else if eventIsGuild ev && !cfg.enableGuilds then (postDedupState cfg st ev, .dropped)
  else if blockedDrop cfg ev then (postDedupState cfg st ev, .dropped)
  else if allowedGroupsDrop cfg ev then (postDedupState cfg st ev, .dropped)
  else if adminsDrop cfg ev then (postDedupState cfg st ev, .dropped)
  else
    match adminCommand (eventIsGuild ev) (eventIsGroup ev) (isAdminUser cfg ev)
        (resolvedTextOf env ev) with
    | some cmd => (postDedupState cfg st ev, .adminCommand cmd)
    | none => triggerStage cfg env st ev

/-- One invocation of the `client.on("message")` handler
(src/unnamed/part_001:1047-1437): the lifecycle meta-event records the
self id; heartbeat and other meta events are consumed; notices are
converted (or dropped); everything that is not then a message event is
dropped; message events run the gate/trigger pipeline. -/
def handleMessage (cfg : QQConfig) (env : Env) (st : PState) (ev : QQEvent) :
    PState × HandlerOutput :=
  if ev.postType = "meta_event" then
    if ev.metaEventType = some "lifecycle" ∧ ev.subType = some "connect"
        ∧ natTruthy ev.selfId then
      ({ st with selfId := ev.selfId }, .dropped)
    else (st, .dropped)
  else
    match convertNotices env st ev with
    | none => (st, .dropped)
    | some ev2 =>
        if ev2.postType = "message" then processMessage cfg env st ev2
        else (st, .dropped)

theorem convertNotices_passthrough (env : Env) (st : PState) (ev : QQEvent)
    (h : ev.postType ≠ "notice") : convertNotices env st ev = some ev := by
  simp [convertNotices, h]

theorem handleMessage_message (cfg : QQConfig) (env : Env) (st : PState)
    (ev : QQEvent) (hpt : ev.postType = "message") :
    handleMessage cfg env st ev = processMessage cfg env st ev := by
  have hne : ev.postType ≠ "notice" := by rw [hpt]; decide
  have h1 : ¬(ev.postType = "meta_event") := by rw [hpt]; decide
  simp only [handleMessage, convertNotices_passthrough env st ev hne]
  rw [if_neg h1, if_pos hpt]

theorem eventIsGroup_not_guild (ev : QQEvent) (hg : eventIsGroup ev = true) :
    eventIsGuild ev = false := by
  simp only [eventIsGroup, decide_eq_true_eq] at hg
  simp [eventIsGuild, hg]

/-- **C10** — Hard-coded sender drop (src/unnamed/part_001:1138): every
message event whose `user_id` equals 2854196310 is dropped unconditionally,
for every configuration, oracle environment and pipeline state — no state
change, no session recording, no reply attempt. -/
theorem hardcoded_sender_always_dropped :
    ∀ (cfg : QQConfig) (env : Env) (st : PState) (ev : QQEvent),
      ev.postType = "message" → ev.userId = some 2854196310 →
      handleMessage cfg env st ev = (st, .dropped) := by
  intro cfg env st ev hpt hu
  rw [handleMessage_message cfg env st ev hpt]
  by_cases hs : selfEchoDrop st ev = true
  · simp [processMessage, hs]
  · simp [processMessage, hs, hu]

def plainEnv : Env :=
  { download := fun _ _ => none, noticeGroupFileUrl := fun _ _ _ => none,
    cachedName := fun _ _ => none, memberInfo := fun _ _ => none,
    getForward := fun _ => none, groupFileUrl := fun _ _ _ => none,
    getFileInfo := fun _ => none, getMsg := fun _ => none }

def plainCfg : QQConfig :=
  { enableDeduplication := none, enableGuilds := false,
    requireMention := some true, historyLimit := none, groupSettings := [],
    keywordTriggers := none, blockedUsers := none, allowedGroups := none,
    admins := none, enableErrorNotify := false, systemPrompt := none }

def plainSt : PState := { selfId := some 777, processed := [] }

def groupEvent : QQEvent :=
  { postType := "message", metaEventType := none, subType := none,
    noticeType := none, targetId := none, selfId := none, userId := some 42,
    groupId := some 99, guildId := none, channelId := none,
    messageId := some "m1", messageType := some "group",
    rawMessage := "hello there", message := some [.text "hello there"],
    file := none, senderNickname := none, time := 0 }

theorem hardcoded_sender_always_dropped_witness :
    handleMessage plainCfg plainEnv plainSt
        { groupEvent with userId := some 2854196310 }
      = (plainSt, .dropped) :=
  hardcoded_sender_always_dropped plainCfg plainEnv plainSt
    { groupEvent with userId := some 2854196310 } rfl rfl

/-- **C7** — Self-echo and empty-event drops
(src/unnamed/part_001:1129-1146): a message event whose sender id equals
the connection's effective self-identity (`client.getSelfId() ??
event.self_id`, a nonzero number) is dropped with no state change and no
downstream processing; likewise a message event whose raw text trims to
empty and whose segment list is empty (or not an array) is dropped
without producing any reply. -/
theorem self_and_empty_events_dropped :
    (∀ (cfg : QQConfig) (env : Env) (st : PState) (ev : QQEvent) (s : Nat),
      ev.postType = "message" → st.selfId.or ev.selfId = some s → s ≠ 0 →
      ev.userId = some s → handleMessage cfg env st ev = (st, .dropped)) ∧
    (∀ (cfg : QQConfig) (env : Env) (st : PState) (ev : QQEvent),
      ev.postType = "message" → jsTrimString ev.rawMessage = "" →
      (ev.message = none ∨ ev.message = some []) →
      handleMessage cfg env st ev = (st, .dropped)) := by
  constructor
  · intro cfg env st ev s hpt hor hs hu
    rw [handleMessage_message cfg env st ev hpt]
    have hself : selfEchoDrop st ev = true := by
      simp [selfEchoDrop, hor, hs, hu]
    simp [processMessage, hself]
  · intro cfg env st ev hpt hraw hmsg
    rw [handleMessage_message cfg env st ev hpt]
    have hempty : emptyDrop ev = true := by
      rcases hmsg with h | h <;> simp [emptyDrop, hraw, h]
    by_cases hs : selfEchoDrop st ev = true
    · simp [processMessage, hs]
    · by_cases hh : ev.userId = some 2854196310
      · simp [processMessage, hs, hh]
      · simp [processMessage, hs, hh, hempty]

theorem self_and_empty_events_dropped_witness :
    handleMessage plainCfg plainEnv plainSt { groupEvent with userId := some 777 }
      = (plainSt, .dropped) ∧
    handleMessage plainCfg plainEnv plainSt
        { groupEvent with rawMessage := "  ", message := none }
      = (plainSt, .dropped) := by
  constructor
  · exact self_and_empty_events_dropped.1 plainCfg plainEnv plainSt
      { groupEvent with userId := some 777 } 777 rfl rfl (by decide) rfl
  · exact self_and_empty_events_dropped.2 plainCfg plainEnv plainSt
      { groupEvent with rawMessage := "  ", message := none } rfl (by decide)
      (Or.inl rfl)

theorem triggerStage_state (cfg : QQConfig) (env : Env) (st : PState)
    (ev : QQEvent) : (triggerStage cfg env st ev).1 = postDedupState cfg st ev := by
  simp only [triggerStage]
  repeat' split
  all_goals rfl

theorem processMessage_state (cfg : QQConfig) (env : Env) (st : PState)
    (ev : QQEvent) :
    (processMessage cfg env st ev).1 = st ∨
      (processMessage cfg env st ev).1 = postDedupState cfg st ev := by
  simp only [processMessage]
  repeat' split
  all_goals first
    | (left; rfl)
    | (right; rfl)
    | (right; exact triggerStage_state cfg env st ev)

theorem processMessage_reply_mem (cfg : QQConfig) (env : Env) (st : PState)
    (ev : QQEvent) (hd : dedupApplies cfg ev = true) :
    isReplyOut (processMessage cfg env st ev).2 = false ∨
      (processMessage cfg env st ev).1.processed.contains (ev.messageId.getD "")
        = true := by
  have hmem : (postDedupState cfg st ev).processed.contains (ev.messageId.getD "")
      = true := by
    simp [postDedupState, hd, List.contains_cons]
  simp only [processMessage]
  repeat' split
  all_goals first
    | (left; rfl)
    | (right; rw [triggerStage_state cfg env st ev]; exact hmem)

theorem postDedupState_mono (cfg : QQConfig) (st : PState) (ev : QQEvent)
    (x : String) (hx : st.processed.contains x = true) :
    (postDedupState cfg st ev).processed.contains x = true := by
  simp only [postDedupState]
  split
  · simp only [List.contains_cons, hx, Bool.or_true]
  · exact hx

theorem processMessage_mono (cfg : QQConfig) (env : Env) (st : PState)
    (ev : QQEvent) (x : String) (hx : st.processed.contains x = true) :
    (processMessage cfg env st ev).1.processed.contains x = true := by
  rcases processMessage_state cfg env st ev with h | h
  · rw [h]; exact hx
  · rw [h]; exact postDedupState_mono cfg st ev x hx

theorem handleMessage_mono (cfg : QQConfig) (env : Env) (st : PState)
    (ev : QQEvent) (x : String) (hx : st.processed.contains x = true) :
    (handleMessage cfg env st ev).1.processed.contains x = true := by
  simp only [handleMessage]
  repeat' split
  all_goals first
    | exact hx
    | exact processMessage_mono cfg env st _ x hx

theorem foldl_handleMessage_mono (cfg : QQConfig) (mid : List (Env × QQEvent))
    (st : PState) (x : String) (hx : st.processed.contains x = true) :
    ((mid.foldl (fun s p => (handleMessage cfg p.1 s p.2).1) st)).processed.contains x
      = true := by
  induction mid generalizing st with
  | nil => exact hx
  | cons p t ih =>
      rw [List.foldl_cons]
      exact ih (handleMessage cfg p.1 st p.2).1
        (handleMessage_mono cfg p.1 st p.2 x hx)

theorem handleMessage_dedup_drop (cfg : QQConfig) (env : Env) (st : PState)
    (ev : QQEvent) (hpt : ev.postType = "message")
    (hd : dedupApplies cfg ev = true)
    (hc : st.processed.contains (ev.messageId.getD "") = true) :
    handleMessage cfg env st ev = (st, .dropped) := by
  rw [handleMessage_message cfg env st ev hpt]
  by_cases h1 : selfEchoDrop st ev = true
  · simp [processMessage, h1]
  · by_cases h2 : ev.userId = some 2854196310
    · simp [processMessage, h1, h2]
    · by_cases h3 : emptyDrop ev = true
      · simp [processMessage, h1, h2, h3]
      · have hgate : (dedupApplies cfg ev
            && st.processed.contains (ev.messageId.getD "")) = true := by
          rw [hd, hc]
          rfl
        simp only [processMessage]
        rw [if_neg h1, if_neg h2, if_neg h3, if_pos hgate]

theorem handleMessage_reply_mem (cfg : QQConfig) (env : Env) (st : PState)
    (ev : QQEvent) (hpt : ev.postType = "message")
    (hd : dedupApplies cfg ev = true)
    (hr : isReplyOut (handleMessage cfg env st ev).2 = true) :
    (handleMessage cfg env st ev).1.processed.contains (ev.messageId.getD "")
      = true := by
  rw [handleMessage_message cfg env st ev hpt] at hr ⊢
  rcases processMessage_reply_mem cfg env st ev hd with h | h
  · rw [h] at hr; cases hr
  · exact h

/-- **C6** — Deduplication and the bounded seen-set
(src/unnamed/part_001:1148-1152 and 1024-1027).  With deduplication
enabled (`enableDeduplication !== false`) and a truthy message id:
(1) a message event whose id is already in the seen set is dropped, with
no state change, session recording or reply attempt; (2) a delivery that
results in a reply attempt records its id in the seen set; (3) the seen
set only grows across arbitrary further handler invocations; (4) hence
when the first delivery of an event produced a reply attempt, redelivering
the same event later — after any other traffic, with any oracle results —
is dropped before any downstream reply attempt, and the pair produces
exactly one reply attempt; (5) the hourly cleanup clears the seen set in
full exactly when its size exceeds the fixed threshold of 1000 entries,
and leaves it untouched otherwise. -/
theorem deduplication_drops_second_delivery :
    (∀ (cfg : QQConfig) (env : Env) (st : PState) (ev : QQEvent),
      ev.postType = "message" → dedupApplies cfg ev = true →
      st.processed.contains (ev.messageId.getD "") = true →
      handleMessage cfg env st ev = (st, .dropped)) ∧
    (∀ (cfg : QQConfig) (env : Env) (st : PState) (ev : QQEvent),
      ev.postType = "message" → dedupApplies cfg ev = true →
      isReplyOut (handleMessage cfg env st ev).2 = true →
      (handleMessage cfg env st ev).1.processed.contains (ev.messageId.getD "")
        = true) ∧
    (∀ (cfg : QQConfig) (env : Env) (st : PState) (ev : QQEvent) (x : String),
      st.processed.contains x = true →
      (handleMessage cfg env st ev).1.processed.contains x = true) ∧
    (∀ (cfg : QQConfig) (env env2 : Env) (st : PState) (ev : QQEvent)
        (mid : List (Env × QQEvent)),
      ev.postType = "message" → dedupApplies cfg ev = true →
      isReplyOut (handleMessage cfg env st ev).2 = true →
      (handleMessage cfg env2
          (mid.foldl (fun s p => (handleMessage cfg p.1 s p.2).1)
            (handleMessage cfg env st ev).1) ev).2 = .dropped ∧
      (if isReplyOut (handleMessage cfg env st ev).2 then 1 else 0)
        + (if isReplyOut (handleMessage cfg env2
              (mid.foldl (fun s p => (handleMessage cfg p.1 s p.2).1)
                (handleMessage cfg env st ev).1) ev).2 then 1 else 0) = 1) ∧
    (∀ processed : List String, 1000 < processed.length → cleanupTick processed = []) ∧
    (∀ processed : List String, processed.length ≤ 1000 →
      cleanupTick processed = processed) := by
  refine ⟨handleMessage_dedup_drop, handleMessage_reply_mem, handleMessage_mono,
    ?_, ?_, ?_⟩
  · intro cfg env env2 st ev mid hpt hd hr
    have hmem := handleMessage_reply_mem cfg env st ev hpt hd hr
    have hmem2 := foldl_handleMessage_mono cfg mid (handleMessage cfg env st ev).1
      (ev.messageId.getD "") hmem
    have hdrop := handleMessage_dedup_drop cfg env2
      (mid.foldl (fun s p => (handleMessage cfg p.1 s p.2).1)
        (handleMessage cfg env st ev).1) ev hpt hd hmem2
    refine ⟨by rw [hdrop], ?_⟩
    rw [hr, hdrop]
    simp [isReplyOut]
  · intro processed h
    simp [cleanupTick, h]
  · intro processed h
    have : ¬ (1000 < processed.length) := by omega
    simp [cleanupTick, this]

theorem deduplication_drops_second_delivery_witness :
    (handleMessage plainCfg plainEnv plainSt
        { groupEvent with messageType := some "private" }).2
      = .reply { fromId := "42", conversationLabel := "QQ User 42",
                 sessionKey := "qq:42", chatType := "direct", senderId := "42",
                 text := "hello there" } ∧
    handleMessage plainCfg plainEnv
        (handleMessage plainCfg plainEnv plainSt
          { groupEvent with messageType := some "private" }).1
        { groupEvent with messageType := some "private" }
      = ((handleMessage plainCfg plainEnv plainSt
          { groupEvent with messageType := some "private" }).1, .dropped) ∧
    cleanupTick (List.replicate 1001 "x") = [] := by
  refine ⟨by decide, ?_, ?_⟩
  · exact deduplication_drops_second_delivery.1 plainCfg plainEnv
      (handleMessage plainCfg plainEnv plainSt
        { groupEvent with messageType := some "private" }).1
      { groupEvent with messageType := some "private" } rfl (by decide) (by decide)
  · exact deduplication_drops_second_delivery.2.2.2.2.1 (List.replicate 1001 "x")
      (by rw [List.length_replicate]; omega)

theorem triggerStage_no_reply (cfg : QQConfig) (env : Env) (st : PState)
    (ev : QQEvent) (hg : eventIsGroup ev = true)
    (hrm : effRequireMention cfg ev = true)
    (hkw : keywordHit cfg (resolvedTextOf env ev) = false)
    (hpoke : containsSubstr (resolvedTextOf env ev) pokePlaceholder = false)
    (hment : ∀ esid, st.selfId.or ev.selfId = some esid →
      mentionSatisfied env ev (resolvedTextOf env ev) esid = false) :
    isReplyOut (triggerStage cfg env st ev).2 = false := by
  have htr : isTriggeredPre cfg ev (resolvedTextOf env ev) = false := by
    simp [isTriggeredPre, hg, hpoke, hkw]
  have hcond : ((eventIsGroup ev || eventIsGuild ev) && effRequireMention cfg ev
      && !isTriggeredPre cfg ev (resolvedTextOf env ev)) = true := by
    rw [hg, hrm, htr]
    rfl
  simp only [triggerStage, if_pos hcond]
  match hor : st.selfId.or ev.selfId with
  | some esid =>
      by_cases h0 : esid = 0
      · simp [h0, isReplyOut]
      · simp [h0, hment esid hor, isReplyOut]
  | none => simp [isReplyOut]

theorem processMessage_no_reply (cfg : QQConfig) (env : Env) (st : PState)
    (ev : QQEvent) (hg : eventIsGroup ev = true)
    (hrm : effRequireMention cfg ev = true)
    (hkw : keywordHit cfg (resolvedTextOf env ev) = false)
    (hpoke : containsSubstr (resolvedTextOf env ev) pokePlaceholder = false)
    (hment : ∀ esid, st.selfId.or ev.selfId = some esid →
      mentionSatisfied env ev (resolvedTextOf env ev) esid = false) :
    isReplyOut (processMessage cfg env st ev).2 = false := by
  have htrig := triggerStage_no_reply cfg env st ev hg hrm hkw hpoke hment
  simp only [processMessage]
  repeat' split
  all_goals first
    | rfl
    | exact htrig

def pokeTextEvent : QQEvent :=
  { groupEvent with rawMessage := pokePlaceholder,
                    message := some [.text pokePlaceholder] }

/-- **C5 counterexample** — the claim's zero-reply clause fails: a plain
group message whose literal text is the poke placeholder string satisfies
every condition of the claim (requireMention on, no keywords configured,
no at segment at all, not a reply) yet triggers a reply, because the
trigger check (src/unnamed/part_001:1277) matches the placeholder
substring in the resolved text. -/
theorem mention_gate_poke_text_counterexample :
    effRequireMention plainCfg pokeTextEvent = true ∧
    plainCfg.keywordTriggers = none ∧
    pokeTextEvent.messageType = some "group" ∧
    ((pokeTextEvent.message.getD []).all (fun s =>
      match s with
      | .atSeg _ => false
      | _ => true)) = true ∧
    getReplyMessageId pokeTextEvent.message (resolvedTextOf plainEnv pokeTextEvent)
      = none ∧
    isReplyOut (handleMessage plainCfg plainEnv plainSt pokeTextEvent).2 = true := by
  refine ⟨by decide, rfl, rfl, by decide, by decide, by decide⟩

/-- **C5 (amended)** — Mention-requirement gating
(src/unnamed/part_001:1277-1293), with the poke-placeholder carve-out the
counterexample forces.  For a group message under `requireMention`:
(1) if the resolved text contains no configured trigger keyword and does
not contain the synthesized poke placeholder string, and the mention check
fails for the effective self id (no at segment targeting self or "all",
no inline CQ at-code for non-array messages, and the quoted message is
not authored by self), then no reply is triggered; (2) if instead the
message passes the earlier gates and the mention check succeeds for a
known nonzero self id, exactly one reply is triggered; (3) a message that
passes the earlier gates and contains a configured trigger keyword
triggers its reply even without any mention — the keyword bypasses the
mention requirement. -/
theorem mention_requirement_gating_amended :
    (∀ (cfg : QQConfig) (env : Env) (st : PState) (ev : QQEvent),
      ev.postType = "message" → eventIsGroup ev = true →
      effRequireMention cfg ev = true →
      keywordHit cfg (resolvedTextOf env ev) = false →
      containsSubstr (resolvedTextOf env ev) pokePlaceholder = false →
      (∀ esid, st.selfId.or ev.selfId = some esid →
        mentionSatisfied env ev (resolvedTextOf env ev) esid = false) →
      isReplyOut (handleMessage cfg env st ev).2 = false) ∧
    (∀ (cfg : QQConfig) (env : Env) (st : PState) (ev : QQEvent) (esid : Nat),
      ev.postType = "message" →
      selfEchoDrop st ev = false → ev.userId ≠ some 2854196310 →
      emptyDrop ev = false →
      st.processed.contains (ev.messageId.getD "") = false →
      eventIsGroup ev = true →
      blockedDrop cfg ev = false → allowedGroupsDrop cfg ev = false →
      adminsDrop cfg ev = false →
      adminCommand (eventIsGuild ev) (eventIsGroup ev) (isAdminUser cfg ev)
        (resolvedTextOf env ev) = none →
      st.selfId.or ev.selfId = some esid → esid ≠ 0 →
      mentionSatisfied env ev (resolvedTextOf env ev) esid = true →
      (handleMessage cfg env st ev).2
        = .reply (mkReplyCtx ev (resolvedTextOf env ev))) ∧
    (∀ (cfg : QQConfig) (env : Env) (st : PState) (ev : QQEvent),
      ev.postType = "message" →
      selfEchoDrop st ev = false → ev.userId ≠ some 2854196310 →
      emptyDrop ev = false →
      st.processed.contains (ev.messageId.getD "") = false →
      eventIsGroup ev = true →
      blockedDrop cfg ev = false → allowedGroupsDrop cfg ev = false →
      adminsDrop cfg ev = false →
      adminCommand (eventIsGuild ev) (eventIsGroup ev) (isAdminUser cfg ev)
        (resolvedTextOf env ev) = none →
      keywordHit cfg (resolvedTextOf env ev) = true →
      (handleMessage cfg env st ev).2
        = .reply (mkReplyCtx ev (resolvedTextOf env ev))) := by
  refine ⟨?_, ?_, ?_⟩
  · intro cfg env st ev hpt hg hrm hkw hpoke hment
    rw [handleMessage_message cfg env st ev hpt]
    exact processMessage_no_reply cfg env st ev hg hrm hkw hpoke hment
  · intro cfg env st ev esid hpt h1 h2 h3 h4 hg h6 h7 h8 h9 h10 h0 h11
    rw [handleMessage_message cfg env st ev hpt]
    have hdgate : ¬((dedupApplies cfg ev
        && st.processed.contains (ev.messageId.getD "")) = true) := by
      rw [h4, Bool.and_false]
      exact Bool.false_ne_true
    have hguild : ¬((eventIsGuild ev && !cfg.enableGuilds) = true) := by
      rw [eventIsGroup_not_guild ev hg, Bool.false_and]
      exact Bool.false_ne_true
    have h1' : ¬(selfEchoDrop st ev = true) := by rw [h1]; exact Bool.false_ne_true
    have h3' : ¬(emptyDrop ev = true) := by rw [h3]; exact Bool.false_ne_true
    have h6' : ¬(blockedDrop cfg ev = true) := by rw [h6]; exact Bool.false_ne_true
    have h7' : ¬(allowedGroupsDrop cfg ev = true) := by
      rw [h7]; exact Bool.false_ne_true
    have h8' : ¬(adminsDrop cfg ev = true) := by rw [h8]; exact Bool.false_ne_true
    simp only [processMessage]
    rw [if_neg h1', if_neg h2, if_neg h3', if_neg hdgate, if_neg hguild,
        if_neg h6', if_neg h7', if_neg h8']
    simp only [h9]
    by_cases hcond : ((eventIsGroup ev || eventIsGuild ev)
        && effRequireMention cfg ev
        && !isTriggeredPre cfg ev (resolvedTextOf env ev)) = true
    · simp only [triggerStage, if_pos hcond, h10]
      rw [if_neg h0, if_pos h11]
    · simp only [triggerStage, if_neg hcond]
  · intro cfg env st ev hpt h1 h2 h3 h4 hg h6 h7 h8 h9 hkw
    rw [handleMessage_message cfg env st ev hpt]
    have hdgate : ¬((dedupApplies cfg ev
        && st.processed.contains (ev.messageId.getD "")) = true) := by
      rw [h4, Bool.and_false]
      exact Bool.false_ne_true
    have hguild : ¬((eventIsGuild ev && !cfg.enableGuilds) = true) := by
      rw [eventIsGroup_not_guild ev hg, Bool.false_and]
      exact Bool.false_ne_true
    have h1' : ¬(selfEchoDrop st ev = true) := by rw [h1]; exact Bool.false_ne_true
    have h3' : ¬(emptyDrop ev = true) := by rw [h3]; exact Bool.false_ne_true
    have h6' : ¬(blockedDrop cfg ev = true) := by rw [h6]; exact Bool.false_ne_true
    have h7' : ¬(allowedGroupsDrop cfg ev = true) := by
      rw [h7]; exact Bool.false_ne_true
    have h8' : ¬(adminsDrop cfg ev = true) := by rw [h8]; exact Bool.false_ne_true
    have htr : isTriggeredPre cfg ev (resolvedTextOf env ev) = true := by
      simp [isTriggeredPre, hkw]
    have hcond : ¬(((eventIsGroup ev || eventIsGuild ev)
        && effRequireMention cfg ev
        && !isTriggeredPre cfg ev (resolvedTextOf env ev)) = true) := by
      rw [htr]
      simp
    simp only [processMessage]
    rw [if_neg h1', if_neg h2, if_neg h3', if_neg hdgate, if_neg hguild,
        if_neg h6', if_neg h7', if_neg h8']
    simp only [h9]
    simp only [triggerStage, if_neg hcond]

def atSelfEvent : QQEvent :=
  { groupEvent with message := some [.atSeg "777", .text " hi"] }

def keywordCfg : QQConfig := { plainCfg with keywordTriggers := some ["hello"] }

theorem mention_requirement_gating_amended_witness :
    isReplyOut (handleMessage plainCfg plainEnv plainSt groupEvent).2 = false ∧
    (handleMessage plainCfg plainEnv plainSt atSelfEvent).2
      = .reply (mkReplyCtx atSelfEvent (resolvedTextOf plainEnv atSelfEvent)) ∧
    (handleMessage keywordCfg plainEnv plainSt groupEvent).2
      = .reply (mkReplyCtx groupEvent (resolvedTextOf plainEnv groupEvent)) := by
  have h := mention_requirement_gating_amended
  refine ⟨?_, ?_, ?_⟩
  · refine h.1 plainCfg plainEnv plainSt groupEvent rfl rfl (by decide) (by decide)
      (by decide) ?_
    intro esid he
    injection he with he2
    subst he2
    decide
  · exact h.2.1 plainCfg plainEnv plainSt atSelfEvent 777 rfl (by decide)
      (by decide) (by decide) (by decide) rfl (by decide) (by decide) (by decide)
      (by decide) rfl (by decide) (by decide)
  · exact h.2.2 keywordCfg plainEnv plainSt groupEvent rfl (by decide) (by decide)
      (by decide) (by decide) rfl (by decide) (by decide) (by decide) (by decide)
      (by decide)
